import Mathlib

/-!
Verification of the Kenya Overwatch detection-to-evidence core.

Shallow embedding of `src/backend/production_system.py` (RiskScoringEngine,
EvidenceManager, MilestoneManager) and `src/backend/anpr/__init__.py`
(VehicleTracker).  Python floats are modelled as rationals (all constants in
the source are small decimal fractions), datetimes as natural-number epoch
seconds, dictionaries as association lists in insertion order, and raised
exceptions as an `Option` result (`none` = the call raises).  The SHA-256
digest used by `EvidenceManager._hash_package` is modelled by an explicit
function parameter `H : String → String` over the canonical serialization
(`json.dumps(asdict(package), sort_keys=True)` is modelled by
`serializePackage`, a deterministic sorted-key rendering of the same fields);
concrete theorems instantiate `H` with the computable stand-in `digest`.
-/

namespace KenyaOverwatch

/-! ## Risk scoring engine (production_system.py, RiskScoringEngine) -/

/-- Risk levels, `RiskLevel` enum of the source. -/
inductive RiskLevel
  | low
  | medium
  | high
  | critical
deriving DecidableEq

/-- Bounding box of a detection event, the dict keys x/y/w/h of the source. -/
structure BoundingBox where
  x : Int
  y : Int
  w : Int
  h : Int
deriving DecidableEq

/-- `DetectionEvent` dataclass.  `timestamp` is epoch seconds; the free-form
`attributes` dict is modelled as a string-to-string association list. -/
structure DetectionEvent where
  camera_id : String
  timestamp : Int
  detection_type : String
  confidence : ℚ
  bounding_box : BoundingBox
  attributes : List (String × String)
  frame_hash : String
  model_version : String
deriving DecidableEq

/-- The `context` dict read by the risk engine via `.get` with these default
values (a missing key is modelled by the default field value). -/
structure Context where
  location : String := ""
  crowd_density : String := "normal"
  weather : String := "clear"
  traffic : String := "normal"
deriving DecidableEq

/-- `RiskFactors` dataclass. -/
structure RiskFactors where
  temporal_risk : ℚ
  spatial_risk : ℚ
  behavioral_risk : ℚ
  contextual_risk : ℚ
  reason_codes : List String
deriving DecidableEq

/-- `RiskAssessment` dataclass (`timestamp` is the epoch second of the call). -/
structure RiskAssessment where
  risk_score : ℚ
  risk_level : RiskLevel
  factors : RiskFactors
  recommended_action : String
  confidence : ℚ
  timestamp : Nat
deriving DecidableEq

/-- `self.risk_weights['behavioral']`. -/
def weightBehavioral : ℚ := 4/10

/-- `self.risk_weights['spatial']`. -/
def weightSpatial : ℚ := 3/10

/-- `self.risk_weights['temporal']`. -/
def weightTemporal : ℚ := 2/10

/-- `self.risk_weights['contextual']`. -/
def weightContextual : ℚ := 1/10

/-- `self.high_risk_zones`: zone keyword and risk multiplier. -/
def high_risk_zones : List (String × ℚ) :=
  [("airport", 15/10), ("government", 13/10), ("school", 12/10)]

/-- Python substring test `pat in s` on lists of characters. -/
def strContains (s pat : String) : Bool :=
  s.toList.tails.any (fun t => pat.toList.isPrefixOf t)

/-- `_detect_motion_changes`: the source returns the constant 0.3. -/
def detect_motion_changes (_events : List DetectionEvent) : ℚ := 3/10

/-- `_detect_loitering`: 0 for fewer than 5 events, else 0.8 when the time span
between the first and last event exceeds 300 seconds, else 0.2. -/
def detect_loitering : List DetectionEvent → ℚ
  | [] => 0
  | e :: es =>
    if (e :: es).length < 5 then 0
    else if ((e :: es).getLast (List.cons_ne_nil e es)).timestamp - e.timestamp > 300
      then 8/10 else 2/10

/-- `_detect_directional_conflicts`: the source returns the constant 0.4. -/
def detect_directional_conflicts (_events : List DetectionEvent) : ℚ := 4/10

/-- `_calculate_behavioral_risk`: 0 on an empty batch, else fixed increments
per fired sub-detector, capped at 1. -/
def calculate_behavioral_risk (events : List DetectionEvent) : ℚ :=
  match events with
  | [] => 0
  | _ =>
    let r1 : ℚ := if detect_motion_changes events > 7/10 then 3/10 else 0
    let r2 : ℚ := if detect_loitering events > 6/10 then 2/10 else 0
    let r3 : ℚ := if detect_directional_conflicts events > 5/10 then 25/100 else 0
    min (r1 + r2 + r3) 1

/-- Zone multiplier: the first high-risk zone whose keyword occurs in the
lowercased location (the for/break loop of the source), else 1. -/
def zoneMultiplier (loc : String) : ℚ :=
  match high_risk_zones.find? (fun z => strContains loc z.1) with
  | some z => z.2
  | none => 1

/-- `_calculate_spatial_risk`: base 0.1 scaled by the zone multiplier, then
adjusted by crowd density, capped at 1. -/
def calculate_spatial_risk (context : Context) : ℚ :=
  let loc := context.location.toLower
  let base := (1/10 : ℚ) * zoneMultiplier loc
  let base :=
    if context.crowd_density = "low" then base + 1/10
    else if context.crowd_density = "high" then base - 1/10
    else base
  min base 1

/-- Hour of day of an epoch second, `utcnow().hour` of the source. -/
def hourOf (now : Nat) : Nat := now / 3600 % 24

/-- `_calculate_temporal_risk`: three fixed hour bands read off the wall clock
(`utcnow().hour`); the `events` and `context` arguments are unused in the
source. -/
def calculate_temporal_risk (now : Nat) (_events : List DetectionEvent)
    (_context : Context) : ℚ :=
  let h := hourOf now
  if 22 ≤ h ∨ h ≤ 5 then 3/10
  else if 6 ≤ h ∧ h ≤ 8 then 2/10
  else 1/10

/-- `_calculate_contextual_risk`: additive weather/traffic increments, capped
at 1; the `events` argument is unused in the source. -/
def calculate_contextual_risk (_events : List DetectionEvent)
    (context : Context) : ℚ :=
  let r1 : ℚ :=
    if context.weather = "storm" then 1/10
    else if context.weather = "fog" then 5/100
    else 0
  let r2 : ℚ := if context.traffic = "congested" then 5/100 else 0
  min (r1 + r2) 1

/-- `_determine_risk_level`: fixed thresholds 0.3 / 0.6 / 0.8. -/
def determine_risk_level (s : ℚ) : RiskLevel :=
  if s < 3/10 then .low
  else if s < 6/10 then .medium
  else if s < 8/10 then .high
  else .critical

/-- `_generate_reason_codes`: one code per sub-factor exceeding 0.5. -/
def generate_reason_codes (b sp t c : ℚ) : List String :=
  (if b > 1/2 then ["BEHAVIORAL_ANOMALY"] else []) ++
  (if sp > 1/2 then ["HIGH_RISK_LOCATION"] else []) ++
  (if t > 1/2 then ["HIGH_RISK_TIME"] else []) ++
  (if c > 1/2 then ["ADVERSE_CONDITIONS"] else [])

/-- `_recommend_action`: fixed action per level. -/
def recommend_action : RiskLevel → String
  | .low => "Log only"
  | .medium => "Operator notification"
  | .high => "Supervisor review"
  | .critical => "Immediate human response"

/-- `assess_risk`.  `now` is the epoch second at which the call runs: the
source reads the wall clock (`utcnow`) for the temporal factor and the result
timestamp, made explicit here as a parameter. -/
def assess_risk (now : Nat) (events : List DetectionEvent)
    (context : Context) : RiskAssessment :=
  let b := calculate_behavioral_risk events
  let sp := calculate_spatial_risk context
  let t := calculate_temporal_risk now events context
  let c := calculate_contextual_risk events context
  let score := weightBehavioral * b + weightSpatial * sp +
    weightTemporal * t + weightContextual * c
  { risk_score := score
    risk_level := determine_risk_level score
    factors :=
      { temporal_risk := t, spatial_risk := sp, behavioral_risk := b
        contextual_risk := c, reason_codes := generate_reason_codes b sp t c }
    recommended_action := recommend_action (determine_risk_level score)
    confidence := 85/100
    timestamp := now }

/-! ## Evidence manager (production_system.py, EvidenceManager) -/

/-- `EvidenceStatus` enum. -/
inductive EvidenceStatus
  | created
  | under_review
  | approved
  | rejected
  | appealed
  | archived
deriving DecidableEq

/-- String value of an `EvidenceStatus` (the enum is a `str` enum). -/
def evidenceStatusStr : EvidenceStatus → String
  | .created => "created"
  | .under_review => "under_review"
  | .approved => "approved"
  | .rejected => "rejected"
  | .appealed => "appealed"
  | .archived => "archived"

/-- One chain-of-custody entry appended by `review_evidence`. -/
structure CustodyEntry where
  action : String
  reviewer_id : String
  decision : String
  timestamp : Nat
deriving DecidableEq

/-- The package `metadata` dict.  `appeal_reason`/`appeal_date` model the keys
added by `submit_appeal` (`none` = key absent from the dict). -/
structure EvMetadata where
  created_by : String
  camera_calibrations : List (String × String)
  system_version : String
  chain_of_custody : List CustodyEntry
  appeal_reason : Option String := none
  appeal_date : Option Nat := none
deriving DecidableEq

/-- `EvidencePackage` dataclass. -/
structure EvidencePackage where
  id : String
  incident_id : String
  created_at : Nat
  events : List DetectionEvent
  risk_assessment : RiskAssessment
  metadata : EvMetadata
  status : EvidenceStatus
  reviewer_id : Option String := none
  review_notes : Option String := none
  appeal_status : Option String := none
  retention_until : Option Nat := none
  package_hash : String := ""
deriving DecidableEq

/-- Audit-log entry (`_log_audit_event`); only the fields the claims touch. -/
structure AuditEntry where
  timestamp : Nat
  event_type : String
deriving DecidableEq

/-- `EvidenceManager` state: the `evidence_packages` dict in insertion order,
and the audit log. -/
structure EvidenceManager where
  evidence_packages : List (String × EvidencePackage)
  audit_log : List AuditEntry
deriving DecidableEq

/-- Retention policy `non_offence` = 72 hours, in seconds. -/
def retention_non_offence : Nat := 72 * 3600

/-- Retention policy `offence_evidence` = 365 days, in seconds. -/
def retention_offence_evidence : Nat := 365 * 86400

/-- Retention policy `appeals_data` = 2555 days (7 years), in seconds. -/
def retention_appeals_data : Nat := 2555 * 86400

/-- `_get_camera_calibrations`, a fixed dict (listed with sorted keys). -/
def cameraCalibrations : List (String × String) :=
  [("gps_accuracy", "±2m"), ("lens_distortion", "calibrated"),
   ("timestamp_sync", "NTP synced")]

/-- Quote a string as a JSON string value (ignoring escaping, which matters
for none of the values the source produces). -/
def qstr (s : String) : String := "\"" ++ s ++ "\""

/-- Serialize an optional string, `null` when absent. -/
def serializeOptStr : Option String → String
  | none => "null"
  | some s => qstr s

/-- Serialize an optional epoch second (datetimes pass through `default=str`
in the source, so they serialize as quoted strings). -/
def serializeOptNat : Option Nat → String
  | none => "null"
  | some n => qstr (toString n)

/-- Canonical rendering of a rational (stands in for the decimal rendering of
the Python float). -/
def serializeRat (q : ℚ) : String := toString q.num ++ "/" ++ toString q.den

/-- Intercalate with the `", "` separator used between JSON items. -/
def joinComma (l : List String) : String := String.intercalate ", " l

/-- Serialize a string-to-string dict (keys in stored order). -/
def serializeStrDict (l : List (String × String)) : String :=
  "\x7b" ++ joinComma (l.map (fun p => qstr p.1 ++ ": " ++ qstr p.2)) ++ "\x7d"

/-- Serialize a `BoundingBox` with sorted keys h, w, x, y. -/
def serializeBBox (b : BoundingBox) : String :=
  "\x7b\"h\": " ++ toString b.h ++ ", \"w\": " ++ toString b.w ++
  ", \"x\": " ++ toString b.x ++ ", \"y\": " ++ toString b.y ++ "\x7d"

/-- Serialize a `DetectionEvent` with sorted keys. -/
def serializeEvent (e : DetectionEvent) : String :=
  "\x7b\"attributes\": " ++ serializeStrDict e.attributes ++
  ", \"bounding_box\": " ++ serializeBBox e.bounding_box ++
  ", \"camera_id\": " ++ qstr e.camera_id ++
  ", \"confidence\": " ++ serializeRat e.confidence ++
  ", \"detection_type\": " ++ qstr e.detection_type ++
  ", \"frame_hash\": " ++ qstr e.frame_hash ++
  ", \"model_version\": " ++ qstr e.model_version ++
  ", \"timestamp\": " ++ qstr (toString e.timestamp) ++ "\x7d"

/-- String value of a `RiskLevel` (a `str` enum). -/
def riskLevelStr : RiskLevel → String
  | .low => "low"
  | .medium => "medium"
  | .high => "high"
  | .critical => "critical"

/-- Serialize `RiskFactors` with sorted keys. -/
def serializeFactors (f : RiskFactors) : String :=
  "\x7b\"behavioral_risk\": " ++ serializeRat f.behavioral_risk ++
  ", \"contextual_risk\": " ++ serializeRat f.contextual_risk ++
  ", \"reason_codes\": [" ++ joinComma (f.reason_codes.map qstr) ++ "]" ++
  ", \"spatial_risk\": " ++ serializeRat f.spatial_risk ++
  ", \"temporal_risk\": " ++ serializeRat f.temporal_risk ++ "\x7d"

/-- Serialize a `RiskAssessment` with sorted keys. -/
def serializeRA (ra : RiskAssessment) : String :=
  "\x7b\"confidence\": " ++ serializeRat ra.confidence ++
  ", \"factors\": " ++ serializeFactors ra.factors ++
  ", \"recommended_action\": " ++ qstr ra.recommended_action ++
  ", \"risk_level\": " ++ qstr (riskLevelStr ra.risk_level) ++
  ", \"risk_score\": " ++ serializeRat ra.risk_score ++
  ", \"timestamp\": " ++ qstr (toString ra.timestamp) ++ "\x7d"

/-- Serialize a chain-of-custody entry with sorted keys. -/
def serializeCustody (c : CustodyEntry) : String :=
  "\x7b\"action\": " ++ qstr c.action ++
  ", \"decision\": " ++ qstr c.decision ++
  ", \"reviewer_id\": " ++ qstr c.reviewer_id ++
  ", \"timestamp\": " ++ qstr (toString c.timestamp) ++ "\x7d"

/-- Serialize the metadata dict with sorted keys; the appeal keys are omitted
entirely while absent, exactly as for the Python dict. -/
def serializeMetadata (md : EvMetadata) : String :=
  "\x7b" ++
  (match md.appeal_date with
   | none => ""
   | some d => "\"appeal_date\": " ++ qstr (toString d) ++ ", ") ++
  (match md.appeal_reason with
   | none => ""
   | some r => "\"appeal_reason\": " ++ qstr r ++ ", ") ++
  "\"camera_calibrations\": " ++ serializeStrDict md.camera_calibrations ++
  ", \"chain_of_custody\": [" ++
    joinComma (md.chain_of_custody.map serializeCustody) ++ "]" ++
  ", \"created_by\": " ++ qstr md.created_by ++
  ", \"system_version\": " ++ qstr md.system_version ++ "\x7d"

/-- Canonical serialization of a package:
`json.dumps(asdict(package), sort_keys=True, default=str)`.  Note that the
`package_hash` field itself is part of the serialized dict. -/
def serializePackage (p : EvidencePackage) : String :=
  "\x7b\"appeal_status\": " ++ serializeOptStr p.appeal_status ++
  ", \"created_at\": " ++ qstr (toString p.created_at) ++
  ", \"events\": [" ++ joinComma (p.events.map serializeEvent) ++ "]" ++
  ", \"id\": " ++ qstr p.id ++
  ", \"incident_id\": " ++ qstr p.incident_id ++
  ", \"metadata\": " ++ serializeMetadata p.metadata ++
  ", \"package_hash\": " ++ qstr p.package_hash ++
  ", \"retention_until\": " ++ serializeOptNat p.retention_until ++
  ", \"review_notes\": " ++ serializeOptStr p.review_notes ++
  ", \"reviewer_id\": " ++ serializeOptStr p.reviewer_id ++
  ", \"risk_assessment\": " ++ serializeRA p.risk_assessment ++
  ", \"status\": " ++ qstr (evidenceStatusStr p.status) ++ "\x7d"

/-- `_hash_package`, parametric in the digest `H` (SHA-256 in the source). -/
def hash_package (H : String → String) (p : EvidencePackage) : String :=
  H (serializePackage p)

/-- One step of the stand-in digest. -/
def digestStep (a : Nat) (c : Char) : Nat := (a * 131 + c.toNat) % 1000003

/-- Tail loop of the stand-in digest.  The (always true) bound check forces
the accumulator at every step, so that closed runs reduce inside the kernel
without building a thunk chain. -/
def digestGo : List Char → Nat → Nat
  | [], a => a
  | c :: cs, a =>
    if digestStep a c < 1000003 then digestGo cs (digestStep a c) else 0

/-- A computable stand-in digest used to instantiate `H` in concrete runs
(a 131-ary polynomial hash; the refutations only need it to separate the
two concrete serializations involved, as any collision-resistant digest
does). -/
def digest (s : String) : String := toString (digestGo s.toList 7)

/-- Dict lookup on an association list in insertion order. -/
def lookupAssoc {α : Type} : List (String × α) → String → Option α
  | [], _ => none
  | p :: rest, k => if p.1 == k then some p.2 else lookupAssoc rest k

/-- Dict assignment for a key already present (Python keeps the entry in
place, in insertion order). -/
def setAssoc {α : Type} : List (String × α) → String → α → List (String × α)
  | [], _, _ => []
  | p :: rest, k, v => (if p.1 == k then (k, v) else p) :: setAssoc rest k v

/-- Dict lookup `package_id in self.evidence_packages` + read. -/
def EvidenceManager.lookup (m : EvidenceManager) (pid : String) :
    Option EvidencePackage :=
  lookupAssoc m.evidence_packages pid

/-- `_calculate_retention_date` (relative to the call time `now`). -/
def calculate_retention_date (now : Nat) (level : RiskLevel) : Nat :=
  if level = .high ∨ level = .critical then now + retention_offence_evidence
  else now + retention_non_offence

/-- `create_evidence_package`.  `package_id` stands for the fresh `uuid4` and
`now` for `utcnow()`.  The hash is computed while the `package_hash` field
still holds `""`, then stored into the package. -/
def create_evidence_package (H : String → String) (m : EvidenceManager)
    (package_id incident_id : String) (events : List DetectionEvent)
    (ra : RiskAssessment) (now : Nat) : EvidencePackage × EvidenceManager :=
  let pkg0 : EvidencePackage :=
    { id := package_id
      incident_id := incident_id
      created_at := now
      events := events
      risk_assessment := ra
      metadata :=
        { created_by := "AI_System"
          camera_calibrations := cameraCalibrations
          system_version := "2.0.0"
          chain_of_custody := [] }
      status := .created
      retention_until := some (calculate_retention_date now ra.risk_level) }
  let pkg := { pkg0 with package_hash := hash_package H pkg0 }
  (pkg,
   { evidence_packages := m.evidence_packages ++ [(package_id, pkg)]
     audit_log := m.audit_log ++ [⟨now, "evidence_created"⟩] })

/-- The in-place package mutation performed by `review_evidence`: status,
reviewer, notes and custody entry first, then the re-hash — at hashing time
the `package_hash` field still holds the previous hash. -/
def reviewedPackage (H : String → String) (pkg : EvidencePackage)
    (reviewer_id decision notes : String) (now : Nat) : EvidencePackage :=
  let pkg1 :=
    { pkg with
      status := if decision = "approve" then .approved else .rejected
      reviewer_id := some reviewer_id
      review_notes := some notes
      metadata :=
        { pkg.metadata with
          chain_of_custody := pkg.metadata.chain_of_custody ++
            [CustodyEntry.mk "review" reviewer_id decision now] } }
  { pkg1 with package_hash := hash_package H pkg1 }

/-- `review_evidence`. -/
def review_evidence (H : String → String) (m : EvidenceManager)
    (package_id reviewer_id decision notes : String) (now : Nat) :
    Bool × EvidenceManager :=
  match m.lookup package_id with
  | none => (false, m)
  | some pkg =>
    (true,
     { evidence_packages := setAssoc m.evidence_packages package_id
         (reviewedPackage H pkg reviewer_id decision notes now)
       audit_log := m.audit_log ++ [⟨now, "evidence_reviewed"⟩] })

/-- The in-place package mutation performed by `submit_appeal`: status,
appeal metadata and retention; the `package_hash` field is left untouched
(the source method never re-hashes). -/
def appealedPackage (pkg : EvidencePackage) (appeal_reason : String)
    (now : Nat) : EvidencePackage :=
  { pkg with
    status := .appealed
    appeal_status := some "submitted"
    metadata :=
      { pkg.metadata with
        appeal_reason := some appeal_reason
        appeal_date := some now }
    retention_until := some (now + retention_appeals_data) }

/-- `submit_appeal`. -/
def submit_appeal (m : EvidenceManager) (package_id appeal_reason : String)
    (now : Nat) : Bool × EvidenceManager :=
  match m.lookup package_id with
  | none => (false, m)
  | some pkg =>
    (true,
     { evidence_packages := setAssoc m.evidence_packages package_id
         (appealedPackage pkg appeal_reason now)
       audit_log := m.audit_log ++ [⟨now, "appeal_submitted"⟩] })

/-- Invariant of every manager state reachable by time `t`: each stored
retention date lies at most `appeals_data` beyond `t` (each operation run at
some time `u ≤ t` writes a retention of at most `u + appeals_data`). -/
def retentionBound (m : EvidenceManager) (t : Nat) : Bool :=
  m.evidence_packages.all (fun p =>
    match p.2.retention_until with
    | none => true
    | some r => decide (r ≤ t + retention_appeals_data))

/-! ## Milestone manager (production_system.py, MilestoneManager) -/

/-- `MilestoneStatus` enum. -/
inductive MilestoneStatus
  | draft
  | in_progress
  | pending_approval
  | approved
  | rejected
  | cancelled
deriving DecidableEq

/-- `MilestoneType` enum. -/
inductive MilestoneType
  | development
  | incident_case
  | evidence_review
deriving DecidableEq

/-- `SeverityLevel` enum (milestone priority). -/
inductive SeverityLevel
  | low
  | medium
  | high
  | critical
deriving DecidableEq

/-- `Milestone` dataclass. -/
structure Milestone where
  id : String
  title : String
  description : String
  type : MilestoneType
  status : MilestoneStatus
  priority : SeverityLevel
  created_by : String
  assigned_to : Option String
  approved_by : Option String
  created_at : Nat
  updated_at : Option Nat
  due_date : Option Nat
  completed_at : Option Nat
  submitted_for_approval_at : Option Nat
  linked_incident_id : Option String
  linked_evidence_id : Option String
  approval_notes : Option String
  rejection_reason : Option String
deriving DecidableEq

/-- `MilestoneManager` state: the `milestones` dict in insertion order, and
the audit log. -/
structure MilestoneManager where
  milestones : List (String × Milestone)
  audit_log : List AuditEntry
deriving DecidableEq

/-- Dict lookup in the milestones dict. -/
def MilestoneManager.lookup (mgr : MilestoneManager) (mid : String) :
    Option Milestone :=
  lookupAssoc mgr.milestones mid

/-- `create_milestone`: a fresh draft milestone (`milestone_id` stands for the
`uuid4`, `now` for `utcnow()`), stored and audit-logged. -/
def create_milestone (mgr : MilestoneManager)
    (milestone_id title description : String) (mtype : MilestoneType)
    (created_by : String) (priority : SeverityLevel)
    (assigned_to : Option String) (due_date : Option Nat)
    (linked_incident_id linked_evidence_id : Option String) (now : Nat) :
    Milestone × MilestoneManager :=
  let ms : Milestone :=
    { id := milestone_id
      title := title
      description := description
      type := mtype
      status := .draft
      priority := priority
      created_by := created_by
      assigned_to := assigned_to
      approved_by := none
      created_at := now
      updated_at := none
      due_date := due_date
      completed_at := none
      submitted_for_approval_at := none
      linked_incident_id := linked_incident_id
      linked_evidence_id := linked_evidence_id
      approval_notes := none
      rejection_reason := none }
  (ms,
   { milestones := mgr.milestones ++ [(milestone_id, ms)]
     audit_log := mgr.audit_log ++ [⟨now, "milestone_created"⟩] })

/-- One `key=value` item of the `**updates` kwargs of `update_milestone`.
`unknownKey` models a keyword that is not an attribute of the dataclass,
which the `hasattr` guard skips. -/
inductive FieldUpdate
  | setTitle (v : String)
  | setDescription (v : String)
  | setStatus (v : MilestoneStatus)
  | setPriority (v : SeverityLevel)
  | setAssignedTo (v : Option String)
  | setDueDate (v : Option Nat)
  | setApprovalNotes (v : Option String)
  | setRejectionReason (v : Option String)
  | unknownKey (key : String)
deriving DecidableEq

/-- `setattr(milestone, key, value)` guarded by `hasattr`. -/
def applyUpdate (ms : Milestone) : FieldUpdate → Milestone
  | .setTitle v => { ms with title := v }
  | .setDescription v => { ms with description := v }
  | .setStatus v => { ms with status := v }
  | .setPriority v => { ms with priority := v }
  | .setAssignedTo v => { ms with assigned_to := v }
  | .setDueDate v => { ms with due_date := v }
  | .setApprovalNotes v => { ms with approval_notes := v }
  | .setRejectionReason v => { ms with rejection_reason := v }
  | .unknownKey _ => ms

/-- `update_milestone`: applies every requested edit (no status precondition
whatsoever), stamps `updated_at`, and audit-logs; `None` only when the id is
unknown. -/
def update_milestone (mgr : MilestoneManager) (milestone_id _updated_by : String)
    (updates : List FieldUpdate) (now : Nat) :
    Option Milestone × MilestoneManager :=
  match mgr.lookup milestone_id with
  | none => (none, mgr)
  | some ms =>
    let ms1 := updates.foldl applyUpdate ms
    let ms2 := { ms1 with updated_at := some now }
    (some ms2,
     { milestones := setAssoc mgr.milestones milestone_id ms2
       audit_log := mgr.audit_log ++ [⟨now, "milestone_updated"⟩] })

/-- `submit_for_approval`: legal only from draft or in_progress. -/
def submit_for_approval (mgr : MilestoneManager)
    (milestone_id _submitted_by : String) (now : Nat) :
    Option Milestone × MilestoneManager :=
  match mgr.lookup milestone_id with
  | none => (none, mgr)
  | some ms =>
    if ms.status = .draft ∨ ms.status = .in_progress then
      let ms1 :=
        { ms with
          status := .pending_approval
          submitted_for_approval_at := some now
          updated_at := some now }
      (some ms1,
       { milestones := setAssoc mgr.milestones milestone_id ms1
         audit_log := mgr.audit_log ++ [⟨now, "milestone_submitted"⟩] })
    else (none, mgr)

/-- `approve_milestone`: legal only from pending_approval; otherwise returns
`None` with the manager untouched. -/
def approve_milestone (mgr : MilestoneManager)
    (milestone_id approved_by : String) (notes : Option String) (now : Nat) :
    Option Milestone × MilestoneManager :=
  match mgr.lookup milestone_id with
  | none => (none, mgr)
  | some ms =>
    if ms.status = .pending_approval then
      let ms1 :=
        { ms with
          status := .approved
          approved_by := some approved_by
          approval_notes := notes
          completed_at := some now
          updated_at := some now }
      (some ms1,
       { milestones := setAssoc mgr.milestones milestone_id ms1
         audit_log := mgr.audit_log ++ [⟨now, "milestone_approved"⟩] })
    else (none, mgr)

/-- `reject_milestone`: legal only from pending_approval. -/
def reject_milestone (mgr : MilestoneManager)
    (milestone_id rejected_by reason : String) (now : Nat) :
    Option Milestone × MilestoneManager :=
  match mgr.lookup milestone_id with
  | none => (none, mgr)
  | some ms =>
    if ms.status = .pending_approval then
      let ms1 :=
        { ms with
          status := .rejected
          approved_by := some rejected_by
          rejection_reason := some reason
          updated_at := some now }
      (some ms1,
       { milestones := setAssoc mgr.milestones milestone_id ms1
         audit_log := mgr.audit_log ++ [⟨now, "milestone_rejected"⟩] })
    else (none, mgr)

/-- `delete_milestone`: removes the entry only while the status is draft. -/
def delete_milestone (mgr : MilestoneManager) (milestone_id : String)
    (now : Nat) : Bool × MilestoneManager :=
  match mgr.lookup milestone_id with
  | none => (false, mgr)
  | some ms =>
    if ms.status = .draft then
      (true,
       { milestones := mgr.milestones.filter (fun p => !(p.1 == milestone_id))
         audit_log := mgr.audit_log ++ [⟨now, "milestone_deleted"⟩] })
    else (false, mgr)

/-! ## Vehicle tracker (anpr/__init__.py, VehicleTracker)

The SORT-style tracker.  A detection dict is `RawDet`; a missing `bbox` key
(`none`) makes `update` raise `KeyError` in the source, modelled by `update`
returning `none`.  Centroids are stored in doubled coordinates (the source
stores `((x1+x2)/2, (y1+y2)/2)`; storing `(x1+x2, y1+y2)` keeps everything in
ℤ and scales every distance by exactly 2).  The source compares Euclidean
distances `sqrt(dx^2+dy^2) < 150` and `< best`; both comparisons are between
square roots of nonnegative reals, so they are carried out here on the
squared doubled distances (`< 90000 = (2*150)^2`, `< bestSq`), which is
equivalent since the square root and the doubling are strictly monotone. -/

/-- A tracker bounding box `[x1, y1, x2, y2]`. -/
structure TBox where
  x1 : Int
  y1 : Int
  x2 : Int
  y2 : Int
deriving DecidableEq

/-- One detection dict fed to `VehicleTracker.update`.  `bbox := none` models
a malformed dict without the `bbox` key; `plate := none` models an absent
`plate` key (as opposed to `some ""`). -/
structure RawDet where
  bbox : Option TBox
  plate : Option String := none
  plate_confidence : Option ℚ := none
deriving DecidableEq

/-- One entry of `self.tracks`.  `id = none` is the defaultdict placeholder
value (never produced by `update` itself).  `centroid_history` keeps the most
recent centroid last, bounded at 30. -/
structure TrackData where
  id : Option Nat
  plate : String
  plate_confidence : ℚ
  last_seen : Option Nat
  hits : Nat
  age : Nat
  bbox : TBox
  centroid_history : List (Int × Int)
  camera_id : String
  verified : Bool
deriving DecidableEq

/-- Reported entry of the active-track list returned by `update`. -/
structure ActiveTrack where
  track_id : Option Nat
  plate : String
  plate_confidence : ℚ
  bbox : TBox
  verified : Bool
  camera_id : String
  last_seen : Option Nat
  hits : Nat
deriving DecidableEq

/-- `VehicleTracker` state. -/
structure VehicleTracker where
  max_age : Nat
  min_hits : Nat
  tracks : List (Nat × TrackData)
  next_id : Nat
deriving DecidableEq

/-- A fresh tracker (`__init__`: empty dict, next_id 1). -/
def VehicleTracker.init (max_age min_hits : Nat) : VehicleTracker :=
  { max_age := max_age, min_hits := min_hits, tracks := [], next_id := 1 }

/-- Centroid of a bounding box, in doubled coordinates. -/
def centroid (b : TBox) : Int × Int := (b.x1 + b.x2, b.y1 + b.y2)

/-- The centroid-extraction loop at the top of `update`; `none` when some
detection lacks its `bbox` key (the `det['bbox']` KeyError). -/
def centroidsOf (detections : List RawDet) :
    Option (List ((Int × Int) × RawDet)) :=
  detections.mapM (fun det =>
    match det.bbox with
    | none => none
    | some b => some (centroid b, det))

/-- Squared Euclidean distance between two doubled centroids. -/
def distSq (a b : Int × Int) : Int :=
  (a.1 - b.1) * (a.1 - b.1) + (a.2 - b.2) * (a.2 - b.2)

/-- The inner candidate scan of the matching loop: the earliest unmatched
detection index at strictly minimal (squared) distance below the 150-pixel
threshold, with its squared distance. -/
def bestMatch (cents : List ((Int × Int) × RawDet)) (matchedDets : List Nat)
    (lastC : Int × Int) : Option (Nat × Int) :=
  cents.enum.foldl
    (fun acc ic =>
      if ic.1 ∈ matchedDets then acc
      else
        let d := distSq ic.2.1 lastC
        match acc with
        | none => if d < 90000 then some (ic.1, d) else none
        | some (j, bd) => if d < bd ∧ d < 90000 then some (ic.1, d) else some (j, bd))
    none

/-- Deque append with `maxlen=30`. -/
def pushCentroid (h : List (Int × Int)) (c : Int × Int) : List (Int × Int) :=
  let h1 := h ++ [c]
  if 30 < h1.length then h1.drop (h1.length - 30) else h1

/-- The in-place mutation of a matched track: bbox, centroid history,
last_seen, hit count, age reset, and the conditional plate update with the
one-way verified flip at confidence above 0.85. -/
def applyMatch (now : Nat) (c : Int × Int) (det : RawDet) (td : TrackData) :
    TrackData :=
  let td1 :=
    { td with
      bbox := det.bbox.getD td.bbox
      centroid_history := pushCentroid td.centroid_history c
      last_seen := some now
      hits := td.hits + 1
      age := 0 }
  match det.plate with
  | none => td1
  | some p =>
    if p = "" then td1
    else
      let pc := det.plate_confidence.getD 0
      { td1 with
        plate := p
        plate_confidence := pc
        verified := if pc > 85/100 then true else td1.verified }

/-- The per-track body of the matching loop: `none` when the track is skipped
(placeholder id, empty history, or no candidate within the threshold), else
the updated track together with the consumed detection index. -/
def tryMatch (now : Nat) (cents : List ((Int × Int) × RawDet))
    (matchedDets : List Nat) (td : TrackData) : Option (TrackData × Nat) :=
  match td.id with
  | none => none
  | some _ =>
    match td.centroid_history.getLast? with
    | none => none
    | some lastC =>
      match bestMatch cents matchedDets lastC with
      | none => none
      | some (idx, _) =>
        match cents.get? idx with
        | none => none
        | some (c, det) => some (applyMatch now c det td, idx)

/-- The matching loop over `self.tracks.items()` in insertion order,
accumulating matched track keys and consumed detection indices. -/
def matchLoop (now : Nat) (cents : List ((Int × Int) × RawDet)) :
    List (Nat × TrackData) → List Nat → List Nat →
    List (Nat × TrackData) × List Nat × List Nat
  | [], mT, mD => ([], mT, mD)
  | (k, td) :: rest, mT, mD =>
    match tryMatch now cents mD td with
    | none =>
      let r := matchLoop now cents rest mT mD
      ((k, td) :: r.1, r.2)
    | some (td2, idx) =>
      let r := matchLoop now cents rest (mT ++ [k]) (mD ++ [idx])
      ((k, td2) :: r.1, r.2)

/-- Dict assignment `self.tracks[k] = v`: replace in place when the key
exists, else append. -/
def dictSet (l : List (Nat × TrackData)) (k : Nat) (v : TrackData) :
    List (Nat × TrackData) :=
  if l.any (fun p => p.1 == k) then
    l.map (fun p => if p.1 == k then (k, v) else p)
  else l ++ [(k, v)]

/-- A freshly created track for an unmatched detection. -/
def freshTrack (now : Nat) (camera_id : String) (c : Int × Int) (det : RawDet)
    (new_id : Nat) : TrackData :=
  { id := some new_id
    plate := det.plate.getD ""
    plate_confidence := det.plate_confidence.getD 0
    last_seen := some now
    hits := 1
    age := 0
    bbox := det.bbox.getD ⟨0, 0, 0, 0⟩
    centroid_history := [c]
    camera_id := camera_id
    verified := false }

/-- The new-track loop over the enumerated detections: each unmatched
detection takes the first freed id slot (an entry whose id is the defaultdict
placeholder) or the next ascending id. -/
def newLoop (now : Nat) (camera_id : String) (mD : List Nat) :
    List (Nat × ((Int × Int) × RawDet)) → List (Nat × TrackData) → Nat →
    List (Nat × TrackData) × Nat
  | [], trs, nid => (trs, nid)
  | (idx, (c, det)) :: rest, trs, nid =>
    if idx ∈ mD then newLoop now camera_id mD rest trs nid
    else
      match trs.find? (fun p => p.2.id.isNone) with
      | some p =>
        newLoop now camera_id mD rest
          (dictSet trs p.1 (freshTrack now camera_id c det p.1)) nid
      | none =>
        newLoop now camera_id mD rest
          (dictSet trs nid (freshTrack now camera_id c det nid)) (nid + 1)

/-- The aging pass: every non-placeholder entry ages by one, then entries
whose age exceeds `max_age` are deleted. -/
def agePhase (l : List (Nat × TrackData)) (max_age : Nat) :
    List (Nat × TrackData) :=
  (l.map (fun p =>
      if p.2.id.isNone then p else (p.1, { p.2 with age := p.2.age + 1 }))).filter
    (fun p => p.2.id.isNone || decide (p.2.age ≤ max_age))

/-- The reporting pass: every track with `hits ≥ min_hits`. -/
def activeOf (l : List (Nat × TrackData)) (min_hits : Nat) :
    List ActiveTrack :=
  (l.filter (fun p => decide (min_hits ≤ p.2.hits))).map (fun p =>
    { track_id := p.2.id
      plate := p.2.plate
      plate_confidence := p.2.plate_confidence
      bbox := p.2.bbox
      verified := p.2.verified
      camera_id := p.2.camera_id
      last_seen := p.2.last_seen
      hits := p.2.hits })

/-- `VehicleTracker.update`.  `now` models `datetime.now()`; the result is
`none` when the call raises (a detection without a `bbox` key), else the
post-state together with the returned active-track list. -/
def VehicleTracker.update (t : VehicleTracker) (detections : List RawDet)
    (camera_id : String) (now : Nat) :
    Option (VehicleTracker × List ActiveTrack) :=
  match centroidsOf detections with
  | none => none
  | some cents =>
    let m := matchLoop now cents t.tracks [] []
    let n := newLoop now camera_id m.2.2 cents.enum m.1 t.next_id
    let tracks3 := agePhase n.1 t.max_age
    some ({ t with tracks := tracks3, next_id := n.2 },
      activeOf tracks3 t.min_hits)

/-- The matched track keys of one `update` call (the `matched_tracks` set in
insertion order). -/
def VehicleTracker.matchedOf (t : VehicleTracker) (detections : List RawDet)
    (now : Nat) : List Nat :=
  match centroidsOf detections with
  | none => []
  | some cents => (matchLoop now cents t.tracks [] []).2.1

/-- The track list right after the matching loop (before new tracks, aging
and removal): where a matched track momentarily has age 0. -/
def VehicleTracker.postMatchTracks (t : VehicleTracker)
    (detections : List RawDet) (now : Nat) : List (Nat × TrackData) :=
  match centroidsOf detections with
  | none => t.tracks
  | some cents => (matchLoop now cents t.tracks [] []).1

/-- Well-formed track dicts: distinct keys, every entry's id equals its key
(no defaultdict placeholders), and all keys below the id counter. -/
def WFT (l : List (Nat × TrackData)) (n : Nat) : Prop :=
  (l.map Prod.fst).Nodup ∧ (∀ p ∈ l, p.2.id = some p.1) ∧ ∀ p ∈ l, p.1 < n

/-- Well-formed tracker states. -/
def VehicleTracker.WF (t : VehicleTracker) : Prop := WFT t.tracks t.next_id

/-- Tracker states reachable from a fresh tracker by `update` calls. -/
inductive VehicleTracker.Reachable : VehicleTracker → Prop
  | init (max_age min_hits : Nat) :
      VehicleTracker.Reachable (VehicleTracker.init max_age min_hits)
  | step (t t' : VehicleTracker) (detections : List RawDet)
      (camera_id : String) (now : Nat) (act : List ActiveTrack) :
      VehicleTracker.Reachable t →
      t.update detections camera_id now = some (t', act) →
      VehicleTracker.Reachable t'

/-! ## Concrete fixtures for closed runs

Rationals inside fixtures are written as whole numbers or in constructor form
(`Rat.mk'`) so that closed runs reduce inside the kernel. -/

/-- A concrete low-risk assessment. -/
def testRA : RiskAssessment :=
  { risk_score := 0
    risk_level := .low
    factors :=
      { temporal_risk := 0, spatial_risk := 0, behavioral_risk := 0
        contextual_risk := 0, reason_codes := [] }
    recommended_action := "Log only"
    confidence := 1
    timestamp := 0 }

/-- A concrete high-risk assessment. -/
def testRAHigh : RiskAssessment :=
  { testRA with
    risk_level := .high
    risk_score := Rat.mk' 7 10 (by decide) (by decide)
    recommended_action := "Supervisor review" }

/-- A package created at time 1000 in an empty manager. -/
def c1create : EvidencePackage × EvidenceManager :=
  create_evidence_package digest ⟨[], []⟩ "p1" "inc1" [] testRA 1000

/-- An appeal on that package at time 2000. -/
def c1appeal : Bool × EvidenceManager :=
  submit_appeal c1create.2 "p1" "wrong decision" 2000

/-- A manager holding one high-risk package (365-day offence retention),
created at time 1000. -/
def c3m : EvidenceManager :=
  (create_evidence_package digest ⟨[], []⟩ "p2" "inc2" [] testRAHigh 1000).2

/-- A manager holding one freshly created (draft) milestone. -/
def c8mgr : MilestoneManager :=
  (create_milestone ⟨[], []⟩ "m1" "Patrol rollout" "Deploy patrol"
    .development "alice" .medium none none none none 100).2

/-- The created draft milestone itself. -/
def c8ms : Milestone :=
  (create_milestone ⟨[], []⟩ "m1" "Patrol rollout" "Deploy patrol"
    .development "alice" .medium none none none none 100).1

/-- A manager holding one milestone for the update tests. -/
def c10mgrA : MilestoneManager :=
  (create_milestone ⟨[], []⟩ "m2" "Case file" "Review case"
    .incident_case "bob" .high none none none none 50).2

/-- That milestone. -/
def c10msA : Milestone :=
  (create_milestone ⟨[], []⟩ "m2" "Case file" "Review case"
    .incident_case "bob" .high none none none none 50).1

/-- The same manager after an `update_milestone` that set the status straight
to cancelled (a terminal status). -/
def c10mgrB : MilestoneManager :=
  (update_milestone c10mgrA "m2" "bob"
    [FieldUpdate.setStatus .cancelled] 60).2

/-- The stored cancelled milestone. -/
def c10msB : Milestone :=
  { [FieldUpdate.setStatus MilestoneStatus.cancelled].foldl applyUpdate c10msA
    with updated_at := some 60 }

/-- A well-formed detection around pixel centroid (100, 100). -/
def c4det : RawDet := { bbox := some ⟨90, 90, 110, 110⟩ }

/-- A fresh tracker with the default thresholds (max_age 30, min_hits 3). -/
def c4t0 : VehicleTracker := VehicleTracker.init 30 3

/-- Frame 1. -/
def c4u1 : Option (VehicleTracker × List ActiveTrack) :=
  c4t0.update [c4det] "cam_001" 0

/-- Tracker state after frame 1. -/
def c4t1 : VehicleTracker := (c4u1.getD (c4t0, [])).1

/-- Active tracks after frame 1. -/
def c4a1 : List ActiveTrack := (c4u1.getD (c4t0, [])).2

/-- Frame 2. -/
def c4u2 : Option (VehicleTracker × List ActiveTrack) :=
  c4t1.update [c4det] "cam_001" 1

/-- Tracker state after frame 2. -/
def c4t2 : VehicleTracker := (c4u2.getD (c4t0, [])).1

/-- Active tracks after frame 2. -/
def c4a2 : List ActiveTrack := (c4u2.getD (c4t0, [])).2

/-- Frame 3. -/
def c4u3 : Option (VehicleTracker × List ActiveTrack) :=
  c4t2.update [c4det] "cam_001" 2

/-- Tracker state after frame 3. -/
def c4t3 : VehicleTracker := (c4u3.getD (c4t0, [])).1

/-- Active tracks after frame 3 (the track has reached min_hits). -/
def c4a3 : List ActiveTrack := (c4u3.getD (c4t0, [])).2

/-! ## Theorems: risk scoring engine -/

/-- Behavioral risk never exceeds 0.75 (in fact the motion-change and
directional-conflict sub-detectors return constants below their thresholds,
so only the loitering increment of 0.2 can fire). -/
theorem calculate_behavioral_risk_le (events : List DetectionEvent) :
    calculate_behavioral_risk events ≤ 3/4 := by
  unfold calculate_behavioral_risk
  cases events with
  | nil => norm_num
  | cons e es =>
    simp only [detect_motion_changes, detect_directional_conflicts]
    rw [if_neg (show ¬((3 : ℚ)/10 > 7/10) by norm_num),
      if_neg (show ¬((4 : ℚ)/10 > 5/10) by norm_num)]
    have h2 : (if detect_loitering (e :: es) > 6/10 then (2/10 : ℚ) else 0) ≤ 2/10 := by
      split <;> norm_num
    refine le_trans (min_le_left _ _) ?_
    linarith

/-- Spatial risk never exceeds 0.25 (base 0.1, zone multiplier at most 1.5,
crowd adjustment at most +0.1). -/
theorem calculate_spatial_risk_le (context : Context) :
    calculate_spatial_risk context ≤ 1/4 := by
  have hz : zoneMultiplier context.location.toLower ≤ 3/2 := by
    unfold zoneMultiplier
    cases h : high_risk_zones.find? (fun z => strContains context.location.toLower z.1) with
    | none => norm_num
    | some z =>
      have hmem := List.mem_of_find?_eq_some h
      simp only [high_risk_zones, List.mem_cons, List.not_mem_nil, or_false] at hmem
      rcases hmem with h1 | h1 | h1 <;> subst h1 <;> norm_num
  have hb : (1/10 : ℚ) * zoneMultiplier context.location.toLower ≤ 3/20 := by
    nlinarith
  simp only [calculate_spatial_risk]
  refine le_trans (min_le_left _ _) ?_
  split
  · linarith
  · split
    · linarith
    · linarith

/-- Temporal risk never exceeds 0.3. -/
theorem calculate_temporal_risk_le (now : Nat) (events : List DetectionEvent)
    (context : Context) : calculate_temporal_risk now events context ≤ 3/10 := by
  simp only [calculate_temporal_risk]
  split
  · norm_num
  · split <;> norm_num

/-- Contextual risk never exceeds 0.15. -/
theorem calculate_contextual_risk_le (events : List DetectionEvent)
    (context : Context) : calculate_contextual_risk events context ≤ 3/20 := by
  simp only [calculate_contextual_risk]
  refine le_trans (min_le_left _ _) ?_
  split
  · split <;> norm_num
  · split
    · split <;> norm_num
    · split <;> norm_num

/-- A score strictly below 0.6 lands in the low or medium band. -/
theorem determine_risk_level_below_high {s : ℚ} (h : s < 6/10) :
    determine_risk_level s = RiskLevel.low ∨
    determine_risk_level s = RiskLevel.medium := by
  by_cases h1 : s < 3/10
  · left
    unfold determine_risk_level
    rw [if_pos h1]
  · right
    unfold determine_risk_level
    rw [if_neg h1, if_pos h]

/-- C5: for every events list, context and call time, the combined risk score
stays strictly below 0.6 and the risk level is always low or medium, never
high or critical; the sub-factors obey the maxima behavioral ≤ 0.75,
spatial ≤ 0.25, temporal ≤ 0.3, contextual ≤ 0.15. -/
theorem c5_risk_score_bounded (now : Nat) (events : List DetectionEvent)
    (context : Context) :
    (assess_risk now events context).risk_score < 6/10 ∧
    ((assess_risk now events context).risk_level = RiskLevel.low ∨
     (assess_risk now events context).risk_level = RiskLevel.medium) ∧
    (assess_risk now events context).factors.behavioral_risk ≤ 3/4 ∧
    (assess_risk now events context).factors.spatial_risk ≤ 1/4 ∧
    (assess_risk now events context).factors.temporal_risk ≤ 3/10 ∧
    (assess_risk now events context).factors.contextual_risk ≤ 3/20 := by
  have hb := calculate_behavioral_risk_le events
  have hs := calculate_spatial_risk_le context
  have ht := calculate_temporal_risk_le now events context
  have hc := calculate_contextual_risk_le events context
  have hscore : (assess_risk now events context).risk_score < 6/10 := by
    show weightBehavioral * calculate_behavioral_risk events +
      weightSpatial * calculate_spatial_risk context +
      weightTemporal * calculate_temporal_risk now events context +
      weightContextual * calculate_contextual_risk events context < 6/10
    simp only [weightBehavioral, weightSpatial, weightTemporal, weightContextual]
    linarith
  exact ⟨hscore, determine_risk_level_below_high hscore, hb, hs, ht, hc⟩

/-- C2 counterexample: the same arguments (empty events, default context) at
noon and at 23:00 give different risk scores, because the temporal factor
reads the wall clock — `assess_risk` is not a function of its arguments
alone. -/
theorem c2_clock_dependence_counterexample :
    (assess_risk (12 * 3600) [] {}).risk_score ≠
    (assess_risk (23 * 3600) [] {}).risk_score := by
  have ht1 : calculate_temporal_risk (12 * 3600) [] {} = 1/10 := rfl
  have ht2 : calculate_temporal_risk (23 * 3600) [] {} = 3/10 := rfl
  show weightBehavioral * calculate_behavioral_risk [] +
      weightSpatial * calculate_spatial_risk {} +
      weightTemporal * calculate_temporal_risk (12 * 3600) [] {} +
      weightContextual * calculate_contextual_risk [] {} ≠
    weightBehavioral * calculate_behavioral_risk [] +
      weightSpatial * calculate_spatial_risk {} +
      weightTemporal * calculate_temporal_risk (23 * 3600) [] {} +
      weightContextual * calculate_contextual_risk [] {}
  rw [ht1, ht2]
  simp only [weightTemporal]
  intro h
  have h' : (2/10 : ℚ) * (1/10) = 2/10 * (3/10) := by linarith
  norm_num at h' 

/-- C2 amended: `assess_risk` is deterministic once the hidden wall-clock
input is fixed — two calls with identical events, context and hour of day
return the same score, level and reason codes. -/
theorem c2_deterministic_given_hour (n₁ n₂ : Nat)
    (events : List DetectionEvent) (context : Context)
    (h : hourOf n₁ = hourOf n₂) :
    (assess_risk n₁ events context).risk_score =
      (assess_risk n₂ events context).risk_score ∧
    (assess_risk n₁ events context).risk_level =
      (assess_risk n₂ events context).risk_level ∧
    (assess_risk n₁ events context).factors.reason_codes =
      (assess_risk n₂ events context).factors.reason_codes := by
  have ht : calculate_temporal_risk n₁ events context =
      calculate_temporal_risk n₂ events context := by
    unfold calculate_temporal_risk
    rw [h]
  refine ⟨?_, ?_, ?_⟩ <;> simp only [assess_risk, ht]

/-- Witness for the amended C2 theorem at 01:00 of day 0 and 01:00 of day 1. -/
theorem c2_deterministic_given_hour_witness :
    (assess_risk 3600 [] {}).risk_score = (assess_risk 90000 [] {}).risk_score ∧
    (assess_risk 3600 [] {}).risk_level = (assess_risk 90000 [] {}).risk_level ∧
    (assess_risk 3600 [] {}).factors.reason_codes =
      (assess_risk 90000 [] {}).factors.reason_codes :=
  c2_deterministic_given_hour 3600 90000 [] {} (by decide)

/-- C6 counterexample: with an empty events list but a storm context the
contextual factor is 0.1, not 0 — contextual risk does not depend on
the events at all. -/
theorem c6_contextual_nonzero_counterexample :
    (assess_risk 0 [] { weather := "storm" }).factors.contextual_risk ≠ 0 := by
  show calculate_contextual_risk [] { weather := "storm" } ≠ 0
  unfold calculate_contextual_risk
  rw [if_pos rfl, if_neg (show ¬(({ weather := "storm" } : Context).traffic = "congested") by decide)]
  norm_num

/-- C6 amended: an empty events list yields zero behavioral risk (and no
error); the contextual factor ignores the events and is zero exactly when
the context reports no storm/fog weather and no congested traffic. -/
theorem c6_empty_events_baseline (now : Nat) (context : Context) :
    (assess_risk now [] context).factors.behavioral_risk = 0 ∧
    (context.weather ≠ "storm" → context.weather ≠ "fog" →
      context.traffic ≠ "congested" →
      (assess_risk now [] context).factors.contextual_risk = 0) := by
  constructor
  · rfl
  · intro h1 h2 h3
    show calculate_contextual_risk [] context = 0
    unfold calculate_contextual_risk
    rw [if_neg h1, if_neg h2, if_neg h3]
    norm_num

/-- Witness for the amended C6 theorem at the default context. -/
theorem c6_empty_events_baseline_witness :
    (assess_risk 0 [] {}).factors.behavioral_risk = 0 ∧
    (({} : Context).weather ≠ "storm" → ({} : Context).weather ≠ "fog" →
      ({} : Context).traffic ≠ "congested" →
      (assess_risk 0 [] {}).factors.contextual_risk = 0) :=
  c6_empty_events_baseline 0 {}

/-! ## Theorems: evidence manager -/

/-- Setting a key that is present makes it look up to the new value. -/
theorem lookupAssoc_setAssoc {α : Type} (l : List (String × α)) (k : String)
    (v : α) (h : (lookupAssoc l k).isSome) :
    lookupAssoc (setAssoc l k v) k = some v := by
  induction l with
  | nil => simp [lookupAssoc] at h
  | cons p rest ih =>
    by_cases hp : (p.1 == k) = true
    · show lookupAssoc ((if p.1 == k then (k, v) else p) :: setAssoc rest k v) k = some v
      rw [if_pos hp]
      show (if k == k then some v else lookupAssoc (setAssoc rest k v) k) = some v
      rw [if_pos (beq_self_eq_true k)]
    · show lookupAssoc ((if p.1 == k then (k, v) else p) :: setAssoc rest k v) k = some v
      rw [if_neg hp]
      show (if p.1 == k then some p.2 else lookupAssoc (setAssoc rest k v) k) = some v
      rw [if_neg hp]
      apply ih
      have h' : lookupAssoc (p :: rest) k = lookupAssoc rest k := by
        show (if p.1 == k then some p.2 else lookupAssoc rest k) = _
        rw [if_neg hp]
      rw [h'] at h
      exact h

/-- A successful lookup exhibits a member of the association list. -/
theorem lookupAssoc_mem {α : Type} (l : List (String × α)) (k : String)
    (v : α) (h : lookupAssoc l k = some v) : (k, v) ∈ l := by
  induction l with
  | nil => simp [lookupAssoc] at h
  | cons p rest ih =>
    by_cases hp : (p.1 == k) = true
    · have h1 : some p.2 = some v := by
        rw [← h]
        show _ = if p.1 == k then some p.2 else lookupAssoc rest k
        rw [if_pos hp]
      have h2 : p = (k, v) := by
        have := eq_of_beq hp
        cases p
        simp_all
      rw [← h2]
      exact List.mem_cons_self _ _
    · have h' : lookupAssoc rest k = some v := by
        rw [← h]
        show _ = if p.1 == k then some p.2 else lookupAssoc rest k
        rw [if_neg hp]
      exact List.mem_cons_of_mem _ (ih h')

/-- Every entry of `setAssoc l k v` is an original entry or `(k, v)`. -/
theorem mem_setAssoc {α : Type} {l : List (String × α)} {k : String} {v : α}
    {p : String × α} (h : p ∈ setAssoc l k v) : p ∈ l ∨ p = (k, v) := by
  induction l with
  | nil => simp [setAssoc] at h
  | cons q rest ih =>
    simp only [setAssoc, List.mem_cons] at h
    rcases h with h | h
    · by_cases hq : (q.1 == k) = true
      · rw [if_pos hq] at h
        exact Or.inr h
      · rw [if_neg hq] at h
        exact Or.inl (by simp [h])
    · rcases ih h with h1 | h1
      · exact Or.inl (List.mem_cons_of_mem _ h1)
      · exact Or.inr h1

/-- Reading the retention bound of one stored package out of `retentionBound`. -/
theorem retentionBound_le {m : EvidenceManager} {t : Nat} {k : String}
    {pkg : EvidencePackage} (hb : retentionBound m t = true)
    (hm : (k, pkg) ∈ m.evidence_packages) {r : Nat}
    (hr : pkg.retention_until = some r) : r ≤ t + retention_appeals_data := by
  have h1 := (List.all_eq_true.mp hb) _ hm
  rw [hr] at h1
  exact of_decide_eq_true h1

/-- The retention bound is monotone in time. -/
theorem retentionBound_mono {m : EvidenceManager} {t t' : Nat} (h : t ≤ t')
    (hb : retentionBound m t = true) : retentionBound m t' = true := by
  apply List.all_eq_true.mpr
  intro p hp
  have h1 := (List.all_eq_true.mp hb) _ hp
  cases hr : p.2.retention_until with
  | none => simp [hr]
  | some r =>
    rw [hr] at h1
    have := of_decide_eq_true h1
    simp only [hr]
    exact decide_eq_true (by omega)

/-- `create_evidence_package` preserves the retention bound: the fresh
retention (365 days or 72 hours out) is below the 7-year appeal horizon. -/
theorem retentionBound_create (H : String → String) (m : EvidenceManager)
    (pid incid : String) (events : List DetectionEvent) (ra : RiskAssessment)
    (now : Nat) (hb : retentionBound m now = true) :
    retentionBound (create_evidence_package H m pid incid events ra now).2 now
      = true := by
  apply List.all_eq_true.mpr
  intro p hp
  have hmem : p ∈ m.evidence_packages ∨
      p ∈ [(pid, (create_evidence_package H m pid incid events ra now).1)] := by
    simpa using List.mem_append.mp hp
  rcases hmem with h1 | h1
  · exact (List.all_eq_true.mp hb) _ h1
  · have h2 : p.2.retention_until =
        some (calculate_retention_date now ra.risk_level) := by
      have : p = (pid, (create_evidence_package H m pid incid events ra now).1) := by
        simpa using h1
      rw [this]
      rfl
    rw [h2]
    apply decide_eq_true
    unfold calculate_retention_date
    split
    · show now + retention_offence_evidence ≤ now + retention_appeals_data
      unfold retention_offence_evidence retention_appeals_data
      omega
    · show now + retention_non_offence ≤ now + retention_appeals_data
      unfold retention_non_offence retention_appeals_data
      omega

/-- `review_evidence` preserves the retention bound (it never touches
retention). -/
theorem retentionBound_review (H : String → String) (m : EvidenceManager)
    (pid rid dec notes : String) (now : Nat)
    (hb : retentionBound m now = true) :
    retentionBound (review_evidence H m pid rid dec notes now).2 now = true := by
  unfold review_evidence
  cases hl : m.lookup pid with
  | none => exact hb
  | some pkg =>
    apply List.all_eq_true.mpr
    intro p hp
    rcases mem_setAssoc hp with h1 | h1
    · exact (List.all_eq_true.mp hb) _ h1
    · have h2 : p.2.retention_until = pkg.retention_until := by
        rw [h1]
        rfl
      rw [h2]
      have h3 := (List.all_eq_true.mp hb) _ (lookupAssoc_mem _ _ _ hl)
      exact h3

/-- `submit_appeal` preserves the retention bound (the new retention is
exactly the 7-year horizon from now). -/
theorem retentionBound_appeal (m : EvidenceManager) (pid reason : String)
    (now : Nat) (hb : retentionBound m now = true) :
    retentionBound (submit_appeal m pid reason now).2 now = true := by
  unfold submit_appeal
  cases hl : m.lookup pid with
  | none => exact hb
  | some pkg =>
    apply List.all_eq_true.mpr
    intro p hp
    rcases mem_setAssoc hp with h1 | h1
    · exact (List.all_eq_true.mp hb) _ h1
    · have h2 : p.2.retention_until = some (now + retention_appeals_data) := by
        rw [h1]
        rfl
      rw [h2]
      exact decide_eq_true (Nat.le_refl _)

set_option maxRecDepth 4000 in
/-- C1 counterexample: in a concrete run (empty events, the stand-in digest),
the stored hash of a freshly created package already differs from the hash
recomputed over the package's current field values (the serialized dict
includes the `package_hash` field, which was empty when the stored hash was
computed); and `submit_appeal` flips the status to appealed while leaving
`package_hash` unchanged, so after the appeal the stored hash does not
authenticate the current state either. -/
theorem c1_hash_counterexample :
    c1create.1.package_hash ≠ hash_package digest c1create.1 ∧
    c1appeal.1 = true ∧
    (c1appeal.2.lookup "p1").map EvidencePackage.status =
      some EvidenceStatus.appealed ∧
    (c1appeal.2.lookup "p1").map EvidencePackage.package_hash =
      some c1create.1.package_hash ∧
    ((c1appeal.2.lookup "p1").map
      (fun q => q.package_hash == hash_package digest q)) = some false := by
  refine ⟨by decide, rfl, rfl, rfl, by decide⟩

/-- C1 amended: the hash discipline the code actually implements.  At
creation the stored hash digests the serialization in which the
`package_hash` field is still empty; `review_evidence` re-hashes the mutated
package with the previous hash still in the hash field; `submit_appeal` does
not re-hash at all — the stored hash is unchanged while the status flips to
appealed, so it authenticates the pre-appeal state, not the current one. -/
theorem c1_hash_discipline :
    (∀ (H : String → String) (m : EvidenceManager) (pid incid : String)
        (events : List DetectionEvent) (ra : RiskAssessment) (now : Nat),
      (create_evidence_package H m pid incid events ra now).1.package_hash =
        H (serializePackage
          { (create_evidence_package H m pid incid events ra now).1 with
            package_hash := "" })) ∧
    (∀ (H : String → String) (m : EvidenceManager)
        (pid rid dec notes : String) (now : Nat) (pkg : EvidencePackage),
      m.lookup pid = some pkg →
      (review_evidence H m pid rid dec notes now).2.lookup pid =
        some (reviewedPackage H pkg rid dec notes now) ∧
      (reviewedPackage H pkg rid dec notes now).package_hash =
        H (serializePackage
          { reviewedPackage H pkg rid dec notes now with
            package_hash := pkg.package_hash })) ∧
    (∀ (m : EvidenceManager) (pid reason : String) (now : Nat)
        (pkg : EvidencePackage),
      m.lookup pid = some pkg →
      (submit_appeal m pid reason now).2.lookup pid =
        some (appealedPackage pkg reason now) ∧
      (appealedPackage pkg reason now).package_hash = pkg.package_hash ∧
      (appealedPackage pkg reason now).status = EvidenceStatus.appealed) := by
  refine ⟨?_, ?_, ?_⟩
  · intro H m pid incid events ra now
    rfl
  · intro H m pid rid dec notes now pkg h
    constructor
    · show (review_evidence H m pid rid dec notes now).2.lookup pid = _
      unfold review_evidence
      rw [h]
      show lookupAssoc (setAssoc m.evidence_packages pid _) pid = _
      apply lookupAssoc_setAssoc
      show (EvidenceManager.lookup m pid).isSome
      rw [h]
      rfl
    · rfl
  · intro m pid reason now pkg h
    refine ⟨?_, rfl, rfl⟩
    unfold submit_appeal
    rw [h]
    show lookupAssoc (setAssoc m.evidence_packages pid _) pid = _
    apply lookupAssoc_setAssoc
    show (EvidenceManager.lookup m pid).isSome
    rw [h]
    rfl

/-- Witness for the amended C1 theorem on a concrete run. -/
theorem c1_hash_discipline_witness :
    (review_evidence digest c1create.2 "p1" "rev7" "approve" "fine" 1500).2.lookup "p1" =
      some (reviewedPackage digest c1create.1 "rev7" "approve" "fine" 1500) ∧
    (reviewedPackage digest c1create.1 "rev7" "approve" "fine" 1500).package_hash =
      digest (serializePackage
        { reviewedPackage digest c1create.1 "rev7" "approve" "fine" 1500 with
          package_hash := c1create.1.package_hash }) ∧
    (submit_appeal c1create.2 "p1" "wrong decision" 2000).2.lookup "p1" =
      some (appealedPackage c1create.1 "wrong decision" 2000) ∧
    (appealedPackage c1create.1 "wrong decision" 2000).package_hash =
      c1create.1.package_hash ∧
    (appealedPackage c1create.1 "wrong decision" 2000).status =
      EvidenceStatus.appealed := by
  have h1 := c1_hash_discipline.2.1 digest c1create.2 "p1" "rev7" "approve"
    "fine" 1500 c1create.1 rfl
  have h2 := c1_hash_discipline.2.2 c1create.2 "p1" "wrong decision" 2000
    c1create.1 rfl
  exact ⟨h1.1, h1.2, h2.1, h2.2.1, h2.2.2⟩

/-- C3: `submit_appeal` on a known package id returns true, sets the status
to appealed, records the appeal reason and date, and sets the retention to
now + 2555 days; under the reachable-state retention bound this never
decreases the retention (in particular a 365-day offence retention is pushed
out to 7 years); an unknown id returns false and leaves the manager
untouched. -/
theorem c3_submit_appeal (m : EvidenceManager) (pid reason : String)
    (now : Nat) :
    retention_appeals_data = 2555 * 86400 ∧
    (∀ pkg, m.lookup pid = some pkg → retentionBound m now = true →
      (submit_appeal m pid reason now).1 = true ∧
      (submit_appeal m pid reason now).2.lookup pid =
        some (appealedPackage pkg reason now) ∧
      (appealedPackage pkg reason now).status = EvidenceStatus.appealed ∧
      (appealedPackage pkg reason now).appeal_status = some "submitted" ∧
      (appealedPackage pkg reason now).metadata.appeal_reason = some reason ∧
      (appealedPackage pkg reason now).metadata.appeal_date = some now ∧
      (appealedPackage pkg reason now).retention_until =
        some (now + retention_appeals_data) ∧
      pkg.retention_until.getD 0 ≤ now + retention_appeals_data) ∧
    (m.lookup pid = none → submit_appeal m pid reason now = (false, m)) := by
  refine ⟨rfl, ?_, ?_⟩
  · intro pkg h hb
    have hlook : (submit_appeal m pid reason now).2.lookup pid =
        some (appealedPackage pkg reason now) := by
      unfold submit_appeal
      rw [h]
      show lookupAssoc (setAssoc m.evidence_packages pid _) pid = _
      apply lookupAssoc_setAssoc
      show (EvidenceManager.lookup m pid).isSome
      rw [h]
      rfl
    have hfst : (submit_appeal m pid reason now).1 = true := by
      unfold submit_appeal
      rw [h]
    have hold : pkg.retention_until.getD 0 ≤ now + retention_appeals_data := by
      cases hr : pkg.retention_until with
      | none => simp
      | some r =>
        have := retentionBound_le hb (lookupAssoc_mem _ _ _ h) hr
        simpa using this
    exact ⟨hfst, hlook, rfl, rfl, rfl, rfl, rfl, hold⟩
  · intro h
    unfold submit_appeal
    rw [h]

/-- Witness for C3 on a package created with high risk (365-day offence
retention) and appealed 1000 seconds later. -/
theorem c3_submit_appeal_witness :
    (submit_appeal c3m "p2" "contest" 2000).1 = true ∧
    (submit_appeal c3m "p2" "contest" 2000).2.lookup "p2" =
      some (appealedPackage
        (create_evidence_package digest ⟨[], []⟩ "p2" "inc2" [] testRAHigh 1000).1
        "contest" 2000) ∧
    (appealedPackage
        (create_evidence_package digest ⟨[], []⟩ "p2" "inc2" [] testRAHigh 1000).1
        "contest" 2000).status = EvidenceStatus.appealed ∧
    (appealedPackage
        (create_evidence_package digest ⟨[], []⟩ "p2" "inc2" [] testRAHigh 1000).1
        "contest" 2000).appeal_status = some "submitted" ∧
    (appealedPackage
        (create_evidence_package digest ⟨[], []⟩ "p2" "inc2" [] testRAHigh 1000).1
        "contest" 2000).metadata.appeal_reason = some "contest" ∧
    (appealedPackage
        (create_evidence_package digest ⟨[], []⟩ "p2" "inc2" [] testRAHigh 1000).1
        "contest" 2000).metadata.appeal_date = some 2000 ∧
    (appealedPackage
        (create_evidence_package digest ⟨[], []⟩ "p2" "inc2" [] testRAHigh 1000).1
        "contest" 2000).retention_until = some (2000 + retention_appeals_data) ∧
    (create_evidence_package digest ⟨[], []⟩ "p2" "inc2" [] testRAHigh 1000).1.retention_until.getD 0 ≤
      2000 + retention_appeals_data := by
  have h := (c3_submit_appeal c3m "p2" "contest" 2000).2.1
    (create_evidence_package digest ⟨[], []⟩ "p2" "inc2" [] testRAHigh 1000).1
    rfl (by decide)
  exact ⟨h.1, h.2.1, h.2.2.1, h.2.2.2.1, h.2.2.2.2.1, h.2.2.2.2.2.1,
    h.2.2.2.2.2.2.1, h.2.2.2.2.2.2.2⟩

/-! ## Theorems: milestone manager -/

/-- Deleting a key from an association list makes its lookup fail. -/
theorem lookupAssoc_filterOut {α : Type} (l : List (String × α)) (k : String) :
    lookupAssoc (l.filter (fun p => !(p.1 == k))) k = none := by
  induction l with
  | nil => rfl
  | cons p rest ih =>
    by_cases hp : (p.1 == k) = true
    · rw [List.filter_cons]
      simp only [hp]
      exact ih
    · rw [List.filter_cons]
      have hb : (!(p.1 == k)) = true := by
        simp [hp]
      simp only [hb, if_true]
      show (if p.1 == k then some p.2 else
        lookupAssoc (rest.filter (fun p => !(p.1 == k))) k) = none
      rw [if_neg hp]
      exact ih

/-- C8: `approve_milestone` and `reject_milestone` succeed only from
pending_approval — on any other status (for instance draft) they return
`None` and leave the manager, hence the milestone, completely unchanged —
and `delete_milestone` succeeds only from draft, returning false and leaving
everything unchanged otherwise; unknown ids always fail. -/
theorem c8_milestone_gating (mgr : MilestoneManager)
    (pid actor reason : String) (notes : Option String) (now : Nat) :
    (∀ ms, mgr.lookup pid = some ms →
      (ms.status ≠ MilestoneStatus.pending_approval →
        approve_milestone mgr pid actor notes now = (none, mgr) ∧
        reject_milestone mgr pid actor reason now = (none, mgr)) ∧
      (ms.status = MilestoneStatus.pending_approval →
        (approve_milestone mgr pid actor notes now).1.map Milestone.status =
          some MilestoneStatus.approved ∧
        (reject_milestone mgr pid actor reason now).1.map Milestone.status =
          some MilestoneStatus.rejected) ∧
      (ms.status = MilestoneStatus.draft →
        (delete_milestone mgr pid now).1 = true ∧
        (delete_milestone mgr pid now).2.lookup pid = none) ∧
      (ms.status ≠ MilestoneStatus.draft →
        delete_milestone mgr pid now = (false, mgr))) ∧
    (mgr.lookup pid = none →
      approve_milestone mgr pid actor notes now = (none, mgr) ∧
      reject_milestone mgr pid actor reason now = (none, mgr) ∧
      delete_milestone mgr pid now = (false, mgr)) := by
  constructor
  · intro ms h
    refine ⟨?_, ?_, ?_, ?_⟩
    · intro hne
      constructor
      · unfold approve_milestone
        simp only [h]
        rw [if_neg hne]
      · unfold reject_milestone
        simp only [h]
        rw [if_neg hne]
    · intro hp
      constructor
      · unfold approve_milestone
        simp only [h]
        rw [if_pos hp]
        rfl
      · unfold reject_milestone
        simp only [h]
        rw [if_pos hp]
        rfl
    · intro hd
      constructor
      · unfold delete_milestone
        simp only [h]
        rw [if_pos hd]
      · unfold delete_milestone
        simp only [h]
        rw [if_pos hd]
        exact lookupAssoc_filterOut mgr.milestones pid
    · intro hnd
      unfold delete_milestone
      simp only [h]
      rw [if_neg hnd]
  · intro h
    refine ⟨?_, ?_, ?_⟩
    · unfold approve_milestone
      simp only [h]
    · unfold reject_milestone
      simp only [h]
    · unfold delete_milestone
      simp only [h]

/-- Witness for C8 on a concrete draft milestone: approve and reject fail and
change nothing, delete succeeds and removes the entry. -/
theorem c8_milestone_gating_witness :
    (approve_milestone c8mgr "m1" "boss" none 200 = (none, c8mgr) ∧
      reject_milestone c8mgr "m1" "boss" "not ready" 200 = (none, c8mgr)) ∧
    ((delete_milestone c8mgr "m1" 200).1 = true ∧
      (delete_milestone c8mgr "m1" 200).2.lookup "m1" = none) := by
  have h := (c8_milestone_gating c8mgr "m1" "boss" "not ready" none 200).1
    c8ms rfl
  exact ⟨h.1 (by decide), h.2.2.1 rfl⟩

/-- C10: `update_milestone` applies the requested edits and stamps
`updated_at` with no precondition on the milestone's current status
(terminal statuses included), accepts `status` itself as an editable field
(so a caller can jump to any status directly), and fails only on an unknown
id. -/
theorem c10_update_unrestricted (mgr : MilestoneManager) (pid ub : String)
    (updates : List FieldUpdate) (now : Nat) :
    (∀ ms, mgr.lookup pid = some ms →
      (update_milestone mgr pid ub updates now).1 =
        some { updates.foldl applyUpdate ms with updated_at := some now } ∧
      (update_milestone mgr pid ub updates now).2.lookup pid =
        some { updates.foldl applyUpdate ms with updated_at := some now } ∧
      (∀ st, (update_milestone mgr pid ub [FieldUpdate.setStatus st] now).1.map
        Milestone.status = some st)) ∧
    (mgr.lookup pid = none →
      update_milestone mgr pid ub updates now = (none, mgr)) := by
  constructor
  · intro ms h
    refine ⟨?_, ?_, ?_⟩
    · unfold update_milestone
      simp only [h]
    · unfold update_milestone
      simp only [h]
      show lookupAssoc (setAssoc mgr.milestones pid _) pid = _
      apply lookupAssoc_setAssoc
      show (MilestoneManager.lookup mgr pid).isSome
      rw [h]
      rfl
    · intro st
      unfold update_milestone
      simp only [h]
      rfl
  · intro h
    unfold update_milestone
    simp only [h]

/-- Witness for C10: a milestone already in the terminal status cancelled is
edited anyway (title change applied, `updated_at` stamped), and the status
field itself is editable. -/
theorem c10_update_unrestricted_witness :
    (update_milestone c10mgrB "m2" "bob" [FieldUpdate.setTitle "Reopened"] 70).1 =
      some { [FieldUpdate.setTitle "Reopened"].foldl applyUpdate c10msB with
        updated_at := some 70 } ∧
    (update_milestone c10mgrB "m2" "bob" [FieldUpdate.setTitle "Reopened"] 70).2.lookup "m2" =
      some { [FieldUpdate.setTitle "Reopened"].foldl applyUpdate c10msB with
        updated_at := some 70 } ∧
    (update_milestone c10mgrB "m2" "bob"
      [FieldUpdate.setStatus MilestoneStatus.approved] 70).1.map
        Milestone.status = some MilestoneStatus.approved := by
  have h := (c10_update_unrestricted c10mgrB "m2" "bob"
    [FieldUpdate.setTitle "Reopened"] 70).1 c10msB rfl
  exact ⟨h.1, h.2.1, h.2.2 MilestoneStatus.approved⟩

/-! ## Theorems: vehicle tracker -/

/-- A match never touches the track id. -/
theorem applyMatch_id (now : Nat) (c : Int × Int) (det : RawDet)
    (td : TrackData) : (applyMatch now c det td).id = td.id := by
  unfold applyMatch
  rcases det.plate with _ | p
  · rfl
  · by_cases hp : p = "" <;> simp [hp]

/-- A match resets the age to 0 (the aging pass increments it later). -/
theorem applyMatch_age (now : Nat) (c : Int × Int) (det : RawDet)
    (td : TrackData) : (applyMatch now c det td).age = 0 := by
  unfold applyMatch
  rcases det.plate with _ | p
  · rfl
  · by_cases hp : p = "" <;> simp [hp]

/-- A match increments the hit count by exactly one. -/
theorem applyMatch_hits (now : Nat) (c : Int × Int) (det : RawDet)
    (td : TrackData) : (applyMatch now c det td).hits = td.hits + 1 := by
  unfold applyMatch
  rcases det.plate with _ | p
  · rfl
  · by_cases hp : p = "" <;> simp [hp]

/-- Whatever detection a track matched, the updated track keeps its id,
has age 0 and one more hit. -/
theorem tryMatch_fields {now : Nat} {cents : List ((Int × Int) × RawDet)}
    {mD : List Nat} {td td2 : TrackData} {idx : Nat}
    (h : tryMatch now cents mD td = some (td2, idx)) :
    td2.id = td.id ∧ td2.age = 0 ∧ td2.hits = td.hits + 1 := by
  unfold tryMatch at h
  split at h
  · exact Option.noConfusion h
  · split at h
    · exact Option.noConfusion h
    · split at h
      · exact Option.noConfusion h
      · split at h
        · exact Option.noConfusion h
        · cases h
          exact ⟨applyMatch_id _ _ _ _, applyMatch_age _ _ _ _,
            applyMatch_hits _ _ _ _⟩

/-- Against an empty detection frame no track matches. -/
theorem tryMatch_nil (now : Nat) (mD : List Nat) (td : TrackData) :
    tryMatch now [] mD td = none := by
  unfold tryMatch
  rcases td.id with _ | i
  · rfl
  · rcases td.centroid_history.getLast? with _ | c
    · rfl
    · rfl

/-- With an empty detection frame the matching loop copies the track list and
consumes nothing. -/
theorem matchLoop_nil (now : Nat) :
    ∀ (l : List (Nat × TrackData)) (mT mD : List Nat),
    matchLoop now [] l mT mD = (l, mT, mD) := by
  intro l
  induction l with
  | nil => intro mT mD; rfl
  | cons p rest ih =>
    intro mT mD
    show (match tryMatch now [] mD p.2 with
      | none =>
        ((p.1, p.2) :: (matchLoop now [] rest mT mD).1,
          (matchLoop now [] rest mT mD).2)
      | some (td2, idx) =>
        ((p.1, td2) :: (matchLoop now [] rest (mT ++ [p.1]) (mD ++ [idx])).1,
          (matchLoop now [] rest (mT ++ [p.1]) (mD ++ [idx])).2)) = (p :: rest, mT, mD)
    rw [tryMatch_nil]
    rw [ih]

/-- The matching loop preserves keys (in order). -/
theorem matchLoop_fst (now : Nat) (cents : List ((Int × Int) × RawDet)) :
    ∀ (l : List (Nat × TrackData)) (mT mD : List Nat),
    (matchLoop now cents l mT mD).1.map Prod.fst = l.map Prod.fst := by
  intro l
  induction l with
  | nil => intro mT mD; rfl
  | cons p rest ih =>
    intro mT mD
    show (match tryMatch now cents mD p.2 with
      | none =>
        ((p.1, p.2) :: (matchLoop now cents rest mT mD).1,
          (matchLoop now cents rest mT mD).2)
      | some (td2, idx) =>
        ((p.1, td2) :: (matchLoop now cents rest (mT ++ [p.1]) (mD ++ [idx])).1,
          (matchLoop now cents rest (mT ++ [p.1]) (mD ++ [idx])).2)).1.map Prod.fst =
      (p :: rest).map Prod.fst
    rcases hm : tryMatch now cents mD p.2 with _ | td2idx
    · simp only [List.map_cons]
      rw [ih]
    · simp only [List.map_cons]
      rw [ih]

/-- The matching loop preserves the id-equals-key invariant. -/
theorem matchLoop_id_pres (now : Nat) (cents : List ((Int × Int) × RawDet)) :
    ∀ (l : List (Nat × TrackData)) (mT mD : List Nat),
    (∀ p ∈ l, p.2.id = some p.1) →
    ∀ p ∈ (matchLoop now cents l mT mD).1, p.2.id = some p.1 := by
  intro l
  induction l with
  | nil =>
    intro mT mD _ p hp
    exact absurd hp (by simp [matchLoop])
  | cons q rest ih =>
    intro mT mD hl p hp
    revert hp
    show p ∈ (match tryMatch now cents mD q.2 with
      | none =>
        ((q.1, q.2) :: (matchLoop now cents rest mT mD).1,
          (matchLoop now cents rest mT mD).2)
      | some (td2, idx) =>
        ((q.1, td2) :: (matchLoop now cents rest (mT ++ [q.1]) (mD ++ [idx])).1,
          (matchLoop now cents rest (mT ++ [q.1]) (mD ++ [idx])).2)).1 →
      p.2.id = some p.1
    rcases hm : tryMatch now cents mD q.2 with _ | td2idx
    · intro hp
      rcases List.mem_cons.mp hp with h1 | h1
      · rw [h1]
        exact hl q (List.mem_cons_self _ _)
      · exact ih mT mD (fun r hr => hl r (List.mem_cons_of_mem _ hr)) p h1
    · intro hp
      rcases List.mem_cons.mp hp with h1 | h1
      · rw [h1]
        show td2idx.1.id = some q.1
        have hf := @tryMatch_fields now cents mD q.2 td2idx.1 td2idx.2
          (by rw [hm])
        rw [hf.1]
        exact hl q (List.mem_cons_self _ _)
      · exact ih (mT ++ [q.1]) (mD ++ [td2idx.2])
          (fun r hr => hl r (List.mem_cons_of_mem _ hr)) p h1

/-- Unfolding equation of the matching loop on a cons cell. -/
theorem matchLoop_cons (now : Nat) (cents : List ((Int × Int) × RawDet))
    (q : Nat × TrackData) (rest : List (Nat × TrackData)) (mT mD : List Nat) :
    matchLoop now cents (q :: rest) mT mD =
      match tryMatch now cents mD q.2 with
      | none =>
        ((q.1, q.2) :: (matchLoop now cents rest mT mD).1,
          (matchLoop now cents rest mT mD).2)
      | some (td2, idx) =>
        ((q.1, td2) :: (matchLoop now cents rest (mT ++ [q.1]) (mD ++ [idx])).1,
          (matchLoop now cents rest (mT ++ [q.1]) (mD ++ [idx])).2) := by
  rcases q with ⟨k, td⟩
  rfl

/-- The accumulated matched-track list is only carried, never read: running
the loop with accumulator `mT` equals running it with an empty accumulator
and prepending `mT` to the matched output. -/
theorem matchLoop_shift (now : Nat) (cents : List ((Int × Int) × RawDet)) :
    ∀ (l : List (Nat × TrackData)) (mT mD : List Nat),
    (matchLoop now cents l mT mD).1 = (matchLoop now cents l [] mD).1 ∧
    (matchLoop now cents l mT mD).2.1 =
      mT ++ (matchLoop now cents l [] mD).2.1 ∧
    (matchLoop now cents l mT mD).2.2 = (matchLoop now cents l [] mD).2.2 := by
  intro l
  induction l with
  | nil => intro mT mD; exact ⟨rfl, by simp [matchLoop], rfl⟩
  | cons q rest ih =>
    intro mT mD
    rw [matchLoop_cons, matchLoop_cons]
    rcases hm : tryMatch now cents mD q.2 with _ | ⟨td2, idx⟩
    · simp only [hm]
      refine ⟨?_, ?_, ?_⟩
      · show (q.1, q.2) :: (matchLoop now cents rest mT mD).1 =
          (q.1, q.2) :: (matchLoop now cents rest [] mD).1
        rw [(ih mT mD).1]
      · exact (ih mT mD).2.1
      · exact (ih mT mD).2.2
    · simp only [hm]
      refine ⟨?_, ?_, ?_⟩
      · show (q.1, td2) :: (matchLoop now cents rest (mT ++ [q.1]) (mD ++ [idx])).1 =
          (q.1, td2) :: (matchLoop now cents rest ([] ++ [q.1]) (mD ++ [idx])).1
        rw [(ih (mT ++ [q.1]) (mD ++ [idx])).1,
          (ih ([] ++ [q.1]) (mD ++ [idx])).1]
      · show (matchLoop now cents rest (mT ++ [q.1]) (mD ++ [idx])).2.1 =
          mT ++ (matchLoop now cents rest ([] ++ [q.1]) (mD ++ [idx])).2.1
        rw [(ih (mT ++ [q.1]) (mD ++ [idx])).2.1,
          (ih ([] ++ [q.1]) (mD ++ [idx])).2.1]
        simp
      · show (matchLoop now cents rest (mT ++ [q.1]) (mD ++ [idx])).2.2 =
          (matchLoop now cents rest ([] ++ [q.1]) (mD ++ [idx])).2.2
        rw [(ih (mT ++ [q.1]) (mD ++ [idx])).2.2,
          (ih ([] ++ [q.1]) (mD ++ [idx])).2.2]

/-- Every key the loop reports matched is a key of the track list. -/
theorem matchLoop_sub (now : Nat) (cents : List ((Int × Int) × RawDet)) :
    ∀ (l : List (Nat × TrackData)) (mD : List Nat),
    (matchLoop now cents l [] mD).2.1 ⊆ l.map Prod.fst := by
  intro l
  induction l with
  | nil => intro mD; simp [matchLoop]
  | cons q rest ih =>
    intro mD
    rw [matchLoop_cons]
    rcases hm : tryMatch now cents mD q.2 with _ | ⟨td2, idx⟩
    · simp only [hm]
      intro x hx
      exact List.mem_cons_of_mem _ (ih mD hx)
    · simp only [hm]
      intro x hx
      have hs := (matchLoop_shift now cents rest ([] ++ [q.1]) (mD ++ [idx])).2.1
      rw [hs] at hx
      simp only [List.nil_append, List.cons_append, List.mem_cons] at hx
      rcases hx with hx | hx
      · rw [hx]
        simp
      · exact List.mem_cons_of_mem _ (ih (mD ++ [idx]) hx)

/-- Pointwise account of the matching loop over a track list with distinct
keys: a matched key's entry keeps its id, has age 0 and one more hit; an
unmatched key's entry is copied unchanged. -/
theorem matchLoop_entries (now : Nat) (cents : List ((Int × Int) × RawDet)) :
    ∀ (l : List (Nat × TrackData)) (mD : List Nat),
    (l.map Prod.fst).Nodup →
    ∀ k td, (k, td) ∈ l →
      (k ∈ (matchLoop now cents l [] mD).2.1 →
        ∃ td2, (k, td2) ∈ (matchLoop now cents l [] mD).1 ∧
          td2.id = td.id ∧ td2.age = 0 ∧ td2.hits = td.hits + 1) ∧
      (k ∉ (matchLoop now cents l [] mD).2.1 →
        (k, td) ∈ (matchLoop now cents l [] mD).1) := by
  intro l
  induction l with
  | nil =>
    intro mD _ k td h
    exact absurd h (List.not_mem_nil _)
  | cons q rest ih =>
    intro mD hnd k td hmem
    have hq1 : q.1 ∉ rest.map Prod.fst := by
      rw [List.map_cons] at hnd
      exact (List.nodup_cons.mp hnd).1
    have hnd' : (rest.map Prod.fst).Nodup := by
      rw [List.map_cons] at hnd
      exact (List.nodup_cons.mp hnd).2
    rw [matchLoop_cons]
    rcases hm : tryMatch now cents mD q.2 with _ | ⟨td2, idx⟩
    · simp only [hm]
      rcases List.mem_cons.mp hmem with h1 | h1
      · have hk : k = q.1 := congrArg Prod.fst h1
        have hknm : k ∉ (matchLoop now cents rest [] mD).2.1 := by
          intro hin
          exact hq1 (hk ▸ matchLoop_sub now cents rest mD hin)
        constructor
        · intro hin
          exact absurd hin hknm
        · intro _
          have : (k, td) = (q.1, q.2) := by
            rw [h1]
          rw [this]
          exact List.mem_cons_self _ _
      · have hih := ih mD hnd' k td h1
        constructor
        · intro hin
          rcases hih.1 hin with ⟨td2', hmem', hprops⟩
          exact ⟨td2', List.mem_cons_of_mem _ hmem', hprops⟩
        · intro hnin
          exact List.mem_cons_of_mem _ (hih.2 hnin)
    · simp only [hm]
      have hs := matchLoop_shift now cents rest ([] ++ [q.1]) (mD ++ [idx])
      rcases List.mem_cons.mp hmem with h1 | h1
      · have hk : k = q.1 := congrArg Prod.fst h1
        have htd : td = q.2 := congrArg Prod.snd h1
        have hf := tryMatch_fields hm
        constructor
        · intro _
          refine ⟨td2, ?_, ?_, hf.2.1, ?_⟩
          · rw [hk]
            exact List.mem_cons_self _ _
          · rw [hf.1, htd]
          · rw [hf.2.2, htd]
        · intro hnin
          exact absurd (by
            rw [hs.2.1]
            simp [hk]) hnin
      · have hkne : k ≠ q.1 := by
          intro he
          apply hq1
          rw [← he]
          exact List.mem_map_of_mem Prod.fst h1
        have hih := ih (mD ++ [idx]) hnd' k td h1
        constructor
        · intro hin
          rw [hs.2.1] at hin
          simp only [List.nil_append, List.cons_append, List.mem_cons] at hin
          rcases hin with hin | hin
          · exact absurd hin hkne
          · rcases hih.1 hin with ⟨td2', hmem', hprops⟩
            refine ⟨td2', ?_, hprops⟩
            rw [hs.1]
            exact List.mem_cons_of_mem _ hmem'
        · intro hnin
          have hnin' : k ∉ (matchLoop now cents rest [] (mD ++ [idx])).2.1 := by
            intro hin
            apply hnin
            rw [hs.2.1]
            simp [hin]
          rw [hs.1]
          exact List.mem_cons_of_mem _ (hih.2 hnin')

/-- With no placeholder entries the freed-id-slot scan finds nothing. -/
theorem find?_none_of_ids {trs : List (Nat × TrackData)}
    (h : ∀ p ∈ trs, p.2.id = some p.1) :
    trs.find? (fun p => p.2.id.isNone) = none := by
  apply List.find?_eq_none.mpr
  intro p hp
  rw [h p hp]
  simp

/-- Keys below the id counter never collide with it. -/
theorem any_eq_false_of_lt {trs : List (Nat × TrackData)} {nid : Nat}
    (h : ∀ p ∈ trs, p.1 < nid) :
    trs.any (fun p => p.1 == nid) = false := by
  apply List.any_eq_false.mpr
  intro p hp
  have := h p hp
  simp only [beq_iff_eq]
  omega

/-- Assigning a fresh key appends the entry. -/
theorem dictSet_append {trs : List (Nat × TrackData)} {k : Nat}
    {v : TrackData} (h : trs.any (fun p => p.1 == k) = false) :
    dictSet trs k v = trs ++ [(k, v)] := by
  unfold dictSet
  rw [h]
  rfl

/-- Unfolding equation of the new-track loop on a cons cell. -/
theorem newLoop_cons (now : Nat) (cam : String) (mD : List Nat) (idx : Nat)
    (c : Int × Int) (det : RawDet)
    (rest : List (Nat × ((Int × Int) × RawDet)))
    (trs : List (Nat × TrackData)) (nid : Nat) :
    newLoop now cam mD ((idx, (c, det)) :: rest) trs nid =
      if idx ∈ mD then newLoop now cam mD rest trs nid
      else
        match trs.find? (fun p => p.2.id.isNone) with
        | some p => newLoop now cam mD rest
            (dictSet trs p.1 (freshTrack now cam c det p.1)) nid
        | none => newLoop now cam mD rest
            (dictSet trs nid (freshTrack now cam c det nid)) (nid + 1) := rfl

/-- The new-track loop only appends: on a placeholder-free track dict with
keys below the id counter, the result is the input followed by fresh tracks
with ascending new keys, each with age 0 and hit count 1. -/
theorem newLoop_spec (now : Nat) (cam : String) (mD : List Nat) :
    ∀ (cl : List (Nat × ((Int × Int) × RawDet)))
      (trs : List (Nat × TrackData)) (nid : Nat),
    (∀ p ∈ trs, p.2.id = some p.1) →
    (∀ p ∈ trs, p.1 < nid) →
    ∃ news,
      (newLoop now cam mD cl trs nid).1 = trs ++ news ∧
      nid ≤ (newLoop now cam mD cl trs nid).2 ∧
      (∀ p ∈ news, p.2.id = some p.1 ∧ nid ≤ p.1 ∧
        p.1 < (newLoop now cam mD cl trs nid).2 ∧ p.2.age = 0 ∧ p.2.hits = 1) ∧
      (news.map Prod.fst).Pairwise (· < ·) := by
  intro cl
  induction cl with
  | nil =>
    intro trs nid _ _
    exact ⟨[], by simp [newLoop], Nat.le_refl _, by simp, by simp⟩
  | cons q rest ih =>
    intro trs nid hid hlt
    rcases q with ⟨idx, c, det⟩
    rw [newLoop_cons]
    by_cases hidx : idx ∈ mD
    · rw [if_pos hidx]
      exact ih trs nid hid hlt
    · rw [if_neg hidx]
      rw [find?_none_of_ids hid]
      rw [dictSet_append (any_eq_false_of_lt hlt)]
      have hid' : ∀ p ∈ trs ++ [(nid, freshTrack now cam c det nid)],
          p.2.id = some p.1 := by
        intro p hp
        rcases List.mem_append.mp hp with h1 | h1
        · exact hid p h1
        · have : p = (nid, freshTrack now cam c det nid) := by simpa using h1
          rw [this]
          rfl
      have hlt' : ∀ p ∈ trs ++ [(nid, freshTrack now cam c det nid)],
          p.1 < nid + 1 := by
        intro p hp
        rcases List.mem_append.mp hp with h1 | h1
        · exact Nat.lt_succ_of_lt (hlt p h1)
        · have : p = (nid, freshTrack now cam c det nid) := by simpa using h1
          rw [this]
          exact Nat.lt_succ_self _
      rcases ih _ (nid + 1) hid' hlt' with ⟨news', hsplit, hle, hprops, hpair⟩
      refine ⟨(nid, freshTrack now cam c det nid) :: news', ?_, ?_, ?_, ?_⟩
      · rw [hsplit, List.append_assoc]
        rfl
      · exact Nat.le_of_succ_le hle
      · intro p hp
        rcases List.mem_cons.mp hp with h1 | h1
        · rw [h1]
          refine ⟨rfl, Nat.le_refl _, ?_, rfl, rfl⟩
          exact Nat.lt_of_lt_of_le (Nat.lt_succ_self _) hle
        · rcases hprops p h1 with ⟨hpid, hpge, hplt, hpage, hphits⟩
          exact ⟨hpid, Nat.le_of_succ_le hpge, hplt, hpage, hphits⟩
      · rw [List.map_cons]
        apply List.Pairwise.cons
        · intro x hx
          rcases List.mem_map.mp hx with ⟨p, hp, heq⟩
          have := (hprops p hp).2.1
          omega
        · exact hpair

/-- Two entries of an association list with distinct keys and the same key
are the same entry. -/
theorem assoc_key_unique {β : Type} :
    ∀ {l : List (Nat × β)}, (l.map Prod.fst).Nodup →
    ∀ {k : Nat} {a b : β}, (k, a) ∈ l → (k, b) ∈ l → a = b := by
  intro l
  induction l with
  | nil =>
    intro _ k a b ha
    exact absurd ha (List.not_mem_nil _)
  | cons q rest ih =>
    intro hnd k a b ha hb
    have hq1 : q.1 ∉ rest.map Prod.fst := by
      rw [List.map_cons] at hnd
      exact (List.nodup_cons.mp hnd).1
    have hnd' : (rest.map Prod.fst).Nodup := by
      rw [List.map_cons] at hnd
      exact (List.nodup_cons.mp hnd).2
    rcases List.mem_cons.mp ha with h1 | h1 <;>
      rcases List.mem_cons.mp hb with h2 | h2
    · have h3 := h1.trans h2.symm
      injection h3
    · exfalso
      apply hq1
      have hk : q.1 = k := (congrArg Prod.fst h1).symm
      rw [hk]
      simpa using List.mem_map_of_mem Prod.fst h2
    · exfalso
      apply hq1
      have hk : q.1 = k := (congrArg Prod.fst h2).symm
      rw [hk]
      simpa using List.mem_map_of_mem Prod.fst h1
    · exact ih hnd' h1 h2

/-- A surviving aged entry: age incremented and still within max_age. -/
theorem agePhase_mem {l : List (Nat × TrackData)} {maxA k : Nat}
    {td : TrackData} (hm : (k, td) ∈ l) (hid : td.id = some k)
    (hle : td.age + 1 ≤ maxA) :
    (k, { td with age := td.age + 1 }) ∈ agePhase l maxA := by
  unfold agePhase
  apply List.mem_filter.mpr
  constructor
  · apply List.mem_map.mpr
    refine ⟨(k, td), hm, ?_⟩
    simp [hid]
  · simp [hid, hle]

/-- An entry whose incremented age exceeds max_age is gone after the aging
pass. -/
theorem agePhase_absent {l : List (Nat × TrackData)} {maxA k : Nat}
    {td : TrackData} (hnd : (l.map Prod.fst).Nodup)
    (hid : ∀ p ∈ l, p.2.id = some p.1) (hm : (k, td) ∈ l)
    (hgt : maxA < td.age + 1) :
    ∀ td', (k, td') ∉ agePhase l maxA := by
  intro td' hmem
  unfold agePhase at hmem
  have h1 := List.mem_filter.mp hmem
  rcases List.mem_map.mp h1.1 with ⟨q, hq, heq⟩
  have hqid := hid q hq
  rw [if_neg (by simp [hqid])] at heq
  have hk : q.1 = k := congrArg Prod.fst heq
  have htd' : td' = { q.2 with age := q.2.age + 1 } :=
    (congrArg Prod.snd heq).symm
  have hqmem : (k, q.2) ∈ l := by
    have hqe : q = (k, q.2) := by
      rw [← hk]
    rw [← hqe]
    exact hq
  have hqtd : q.2 = td := assoc_key_unique hnd hqmem hm
  have h2 : (td'.id.isNone || decide (td'.age ≤ maxA)) = true := h1.2
  have htid : td'.id = some k := by
    rw [htd']
    show q.2.id = some k
    rw [hqid, hk]
  rw [Bool.or_eq_true] at h2
  rcases h2 with h2 | h2
  · rw [htid] at h2
    simp at h2
  · have h3 := of_decide_eq_true h2
    rw [htd'] at h3
    have h4 : q.2.age + 1 ≤ maxA := h3
    have h5 : td.age + 1 ≤ maxA := by
      rw [← hqtd]
      exact h4
    omega

/-- The aging pass preserves the id-equals-key invariant. -/
theorem agePhase_id {l : List (Nat × TrackData)} {maxA : Nat}
    (hid : ∀ p ∈ l, p.2.id = some p.1) :
    ∀ p ∈ agePhase l maxA, p.2.id = some p.1 := by
  intro p hp
  unfold agePhase at hp
  have h1 := List.mem_filter.mp hp
  rcases List.mem_map.mp h1.1 with ⟨q, hq, heq⟩
  have hqid := hid q hq
  rw [if_neg (by simp [hqid])] at heq
  rw [← heq]
  exact hqid

/-- After the aging pass every surviving track is within max_age. -/
theorem agePhase_age_le {l : List (Nat × TrackData)} {maxA : Nat}
    (hid : ∀ p ∈ l, p.2.id = some p.1) :
    ∀ p ∈ agePhase l maxA, p.2.age ≤ maxA := by
  intro p hp
  have hpid := agePhase_id hid p hp
  have h2 : (p.2.id.isNone || decide (p.2.age ≤ maxA)) = true :=
    (List.mem_filter.mp hp).2
  rw [Bool.or_eq_true] at h2
  rcases h2 with h2 | h2
  · rw [hpid] at h2
    simp at h2
  · exact of_decide_eq_true h2

/-- The aging pass keeps keys (as a sublist). -/
theorem agePhase_fst_sublist (l : List (Nat × TrackData)) (maxA : Nat) :
    List.Sublist ((agePhase l maxA).map Prod.fst) (l.map Prod.fst) := by
  unfold agePhase
  refine List.Sublist.trans (List.Sublist.map _ (List.filter_sublist _)) ?_
  rw [List.map_map]
  have he : (l.map (Prod.fst ∘ fun p =>
      if p.2.id.isNone then p else (p.1, { p.2 with age := p.2.age + 1 }))) =
      l.map Prod.fst := by
    apply List.map_congr_left
    intro x _
    show Prod.fst (if x.2.id.isNone then x else
      (x.1, { x.2 with age := x.2.age + 1 })) = x.1
    by_cases hx : x.2.id.isNone = true
    · rw [if_pos hx]
    · rw [if_neg hx]
  rw [he]

/-- A key surviving the aging pass was a key before it. -/
theorem agePhase_key_mem {l : List (Nat × TrackData)} {maxA : Nat}
    {p : Nat × TrackData} (hp : p ∈ agePhase l maxA) :
    p.1 ∈ l.map Prod.fst :=
  (agePhase_fst_sublist l maxA).subset (List.mem_map_of_mem Prod.fst hp)

/-- Keys transported along an equal key map keep their bound. -/
theorem keys_lt_of_fst_eq {l l' : List (Nat × TrackData)} {n : Nat}
    (hmap : l'.map Prod.fst = l.map Prod.fst) (h : ∀ p ∈ l, p.1 < n) :
    ∀ p ∈ l', p.1 < n := by
  intro p hp
  have h1 : p.1 ∈ l'.map Prod.fst := List.mem_map_of_mem _ hp
  rw [hmap] at h1
  rcases List.mem_map.mp h1 with ⟨q, hq, heq⟩
  rw [← heq]
  exact h q hq

/-- A successful `update` decomposed into its three passes. -/
theorem update_eq {t : VehicleTracker} {dets : List RawDet} {cam : String}
    {now : Nat} {t' : VehicleTracker} {act : List ActiveTrack}
    (h : t.update dets cam now = some (t', act)) :
    ∃ cents, centroidsOf dets = some cents ∧
      t'.tracks = agePhase
        (newLoop now cam (matchLoop now cents t.tracks [] []).2.2 cents.enum
          (matchLoop now cents t.tracks [] []).1 t.next_id).1 t.max_age ∧
      t'.next_id = (newLoop now cam (matchLoop now cents t.tracks [] []).2.2
        cents.enum (matchLoop now cents t.tracks [] []).1 t.next_id).2 ∧
      t'.max_age = t.max_age ∧ t'.min_hits = t.min_hits ∧
      act = activeOf t'.tracks t.min_hits := by
  unfold VehicleTracker.update at h
  split at h
  · exact Option.noConfusion h
  · rename_i cents hc
    have h2 := Option.some.inj h
    injection h2 with ht2 ha2
    refine ⟨cents, hc, ?_, ?_, ?_, ?_, ?_⟩
    · rw [← ht2]
    · rw [← ht2]
    · rw [← ht2]
    · rw [← ht2]
    · rw [← ha2, ← ht2]

/-- A fresh tracker is well-formed. -/
theorem WF_init (ma mh : Nat) : (VehicleTracker.init ma mh).WF :=
  ⟨List.nodup_nil, by simp [VehicleTracker.init], by simp [VehicleTracker.init]⟩

/-- `update` preserves well-formedness. -/
theorem update_WF {t : VehicleTracker} {dets : List RawDet} {cam : String}
    {now : Nat} {t' : VehicleTracker} {act : List ActiveTrack}
    (hwf : t.WF) (h : t.update dets cam now = some (t', act)) : t'.WF := by
  rcases update_eq h with ⟨cents, hc, htr, hnid, hma, hmh, hact⟩
  obtain ⟨hnd, hid, hlt⟩ := hwf
  have h1fst := matchLoop_fst now cents t.tracks [] []
  have h1id := matchLoop_id_pres now cents t.tracks [] [] hid
  have h1lt := keys_lt_of_fst_eq h1fst hlt
  rcases newLoop_spec now cam (matchLoop now cents t.tracks [] []).2.2
      cents.enum (matchLoop now cents t.tracks [] []).1 t.next_id h1id h1lt
    with ⟨news, hsplit, hnle, hprops, hpair⟩
  have h2id : ∀ p ∈ (newLoop now cam (matchLoop now cents t.tracks [] []).2.2
      cents.enum (matchLoop now cents t.tracks [] []).1 t.next_id).1,
      p.2.id = some p.1 := by
    rw [hsplit]
    intro p hp
    rcases List.mem_append.mp hp with h1 | h1
    · exact h1id p h1
    · exact (hprops p h1).1
  have h2lt : ∀ p ∈ (newLoop now cam (matchLoop now cents t.tracks [] []).2.2
      cents.enum (matchLoop now cents t.tracks [] []).1 t.next_id).1,
      p.1 < (newLoop now cam (matchLoop now cents t.tracks [] []).2.2
        cents.enum (matchLoop now cents t.tracks [] []).1 t.next_id).2 := by
    rw [hsplit]
    intro p hp
    rcases List.mem_append.mp hp with h1 | h1
    · exact Nat.lt_of_lt_of_le (h1lt p h1) hnle
    · exact (hprops p h1).2.2.1
  have h2nd : ((newLoop now cam (matchLoop now cents t.tracks [] []).2.2
      cents.enum (matchLoop now cents t.tracks [] []).1 t.next_id).1.map
        Prod.fst).Nodup := by
    rw [hsplit, List.map_append]
    apply List.Nodup.append
    · rw [h1fst]
      exact hnd
    · exact hpair.imp Nat.ne_of_lt
    · intro a ha hb
      rcases List.mem_map.mp ha with ⟨p, hp, hpe⟩
      rcases List.mem_map.mp hb with ⟨q, hq, hqe⟩
      have hpa : p.1 < t.next_id := h1lt p hp
      have hqa : t.next_id ≤ q.1 := (hprops q hq).2.1
      rw [← hpe] at hqe
      omega
  refine ⟨?_, ?_, ?_⟩
  · rw [htr]
    exact List.Nodup.sublist (agePhase_fst_sublist _ _) h2nd
  · rw [htr]
    exact agePhase_id h2id
  · rw [htr, hnid]
    intro p hp
    have h1 := agePhase_key_mem hp
    rcases List.mem_map.mp h1 with ⟨q, hq, heq⟩
    rw [← heq]
    exact h2lt q hq

/-- Every reachable tracker state is well-formed. -/
theorem reachable_WF {t : VehicleTracker} (h : t.Reachable) : t.WF := by
  induction h with
  | init ma mh => exact WF_init ma mh
  | step t t' dets cam now act _ hupd ih => exact update_WF ih hupd

/-- Every reported active track has at least min_hits hits. -/
theorem activeOf_hits (l : List (Nat × TrackData)) (minH : Nat) :
    ∀ a ∈ activeOf l minH, minH ≤ a.hits := by
  intro a ha
  unfold activeOf at ha
  rcases List.mem_map.mp ha with ⟨p, hp, heq⟩
  have h2 : decide (minH ≤ p.2.hits) = true := (List.mem_filter.mp hp).2
  rw [← heq]
  exact of_decide_eq_true h2

/-- Every reported active track reports the id and hits of a stored track. -/
theorem activeOf_origin (l : List (Nat × TrackData)) (minH : Nat) :
    ∀ a ∈ activeOf l minH,
      ∃ p ∈ l, a.track_id = p.2.id ∧ a.hits = p.2.hits := by
  intro a ha
  unfold activeOf at ha
  rcases List.mem_map.mp ha with ⟨p, hp, heq⟩
  exact ⟨p, (List.mem_filter.mp hp).1, by rw [← heq], by rw [← heq]⟩

/-- Over a well-formed track dict the reported track ids are pairwise
distinct. -/
theorem activeOf_nodup {l : List (Nat × TrackData)} {minH : Nat}
    (hid : ∀ p ∈ l, p.2.id = some p.1)
    (hnd : (l.map Prod.fst).Nodup) :
    ((activeOf l minH).map ActiveTrack.track_id).Nodup := by
  unfold activeOf
  rw [List.map_map]
  have he : (l.filter (fun p => decide (minH ≤ p.2.hits))).map
      (ActiveTrack.track_id ∘ fun p =>
        { track_id := p.2.id, plate := p.2.plate
          plate_confidence := p.2.plate_confidence, bbox := p.2.bbox
          verified := p.2.verified, camera_id := p.2.camera_id
          last_seen := p.2.last_seen, hits := p.2.hits : ActiveTrack }) =
      ((l.filter (fun p => decide (minH ≤ p.2.hits))).map Prod.fst).map some := by
    rw [List.map_map]
    apply List.map_congr_left
    intro p hp
    show p.2.id = some p.1
    exact hid p (List.mem_filter.mp hp).1
  rw [he]
  apply List.Nodup.map (fun a b => Option.some.inj)
  exact List.Nodup.sublist (List.Sublist.map _ (List.filter_sublist _)) hnd

/-- C4: after any `update` on a reachable tracker state, every returned
active track has at least `min_hits` hits, and no two returned tracks share
a track id. -/
theorem c4_active_tracks (t : VehicleTracker) (dets : List RawDet)
    (cam : String) (now : Nat) (t' : VehicleTracker) (act : List ActiveTrack)
    (hr : t.Reachable) (h : t.update dets cam now = some (t', act)) :
    (∀ a ∈ act, t.min_hits ≤ a.hits) ∧
    (act.map ActiveTrack.track_id).Nodup := by
  have hwf' := update_WF (reachable_WF hr) h
  rcases update_eq h with ⟨cents, hc, htr, hnid, hma, hmh, hact⟩
  obtain ⟨hnd', hid', hlt'⟩ := hwf'
  rw [hact]
  exact ⟨activeOf_hits _ _, activeOf_nodup hid' hnd'⟩

/-- Witness for C4 on the three-frame scenario: the third `update` reports a
track with 3 hits and distinct ids. -/
theorem c4_active_tracks_witness :
    (∀ a ∈ c4a3, c4t2.min_hits ≤ a.hits) ∧
    (c4a3.map ActiveTrack.track_id).Nodup :=
  c4_active_tracks c4t2 [c4det] "cam_001" 2 c4t3 c4a3
    (VehicleTracker.Reachable.step c4t1 c4t2 [c4det] "cam_001" 1 c4a2
      (VehicleTracker.Reachable.step c4t0 c4t1 [c4det] "cam_001" 0 c4a1
        (VehicleTracker.Reachable.init 30 3) rfl) rfl) rfl

/-- C7: in one `update` call on a reachable state, a matched track's age is
reset to 0 by the match phase and then, like every track, incremented once by
the per-call aging pass (so it survives with age 1 and one more hit whenever
max_age ≥ 1); an unmatched track's age is exactly incremented by one; any
track whose incremented age exceeds max_age is deleted and absent from both
the post-state and the returned active list; and every surviving track has
age ≤ max_age. -/
theorem c7_age_discipline (t : VehicleTracker) (dets : List RawDet)
    (cam : String) (now : Nat) (t' : VehicleTracker) (act : List ActiveTrack)
    (hr : t.Reachable) (h : t.update dets cam now = some (t', act)) :
    (∀ k ∈ t.matchedOf dets now, ∀ td',
      (k, td') ∈ t.postMatchTracks dets now → td'.age = 0) ∧
    (∀ k td, (k, td) ∈ t.tracks → k ∈ t.matchedOf dets now →
      1 ≤ t.max_age →
      ∃ td', (k, td') ∈ t'.tracks ∧ td'.age = 1 ∧ td'.hits = td.hits + 1) ∧
    (∀ k td, (k, td) ∈ t.tracks → k ∉ t.matchedOf dets now →
      (td.age + 1 ≤ t.max_age →
        (k, { td with age := td.age + 1 }) ∈ t'.tracks) ∧
      (t.max_age < td.age + 1 →
        (∀ td', (k, td') ∉ t'.tracks) ∧ ∀ a ∈ act, a.track_id ≠ some k)) ∧
    (∀ p ∈ t'.tracks, p.2.age ≤ t.max_age) := by
  obtain ⟨hnd, hid, hlt⟩ := reachable_WF hr
  have hwf' := update_WF ⟨hnd, hid, hlt⟩ h
  obtain ⟨hnd', hid', hlt'⟩ := hwf'
  rcases update_eq h with ⟨cents, hc, htr, hnid, hma, hmh, hact⟩
  have hmatched : t.matchedOf dets now =
      (matchLoop now cents t.tracks [] []).2.1 := by
    unfold VehicleTracker.matchedOf
    simp only [hc]
  have hpost : t.postMatchTracks dets now =
      (matchLoop now cents t.tracks [] []).1 := by
    unfold VehicleTracker.postMatchTracks
    simp only [hc]
  have h1fst := matchLoop_fst now cents t.tracks [] []
  have h1id := matchLoop_id_pres now cents t.tracks [] [] hid
  have h1lt := keys_lt_of_fst_eq h1fst hlt
  have h1nd : ((matchLoop now cents t.tracks [] []).1.map Prod.fst).Nodup := by
    rw [h1fst]
    exact hnd
  rcases newLoop_spec now cam (matchLoop now cents t.tracks [] []).2.2
      cents.enum (matchLoop now cents t.tracks [] []).1 t.next_id h1id h1lt
    with ⟨news, hsplit, hnle, hprops, hpair⟩
  have h2id : ∀ p ∈ (newLoop now cam (matchLoop now cents t.tracks [] []).2.2
      cents.enum (matchLoop now cents t.tracks [] []).1 t.next_id).1,
      p.2.id = some p.1 := by
    rw [hsplit]
    intro p hp
    rcases List.mem_append.mp hp with h1 | h1
    · exact h1id p h1
    · exact (hprops p h1).1
  have h2nd : ((newLoop now cam (matchLoop now cents t.tracks [] []).2.2
      cents.enum (matchLoop now cents t.tracks [] []).1 t.next_id).1.map
        Prod.fst).Nodup := by
    rw [hsplit, List.map_append]
    apply List.Nodup.append
    · exact h1nd
    · exact hpair.imp Nat.ne_of_lt
    · intro a ha hb
      rcases List.mem_map.mp ha with ⟨p, hp, hpe⟩
      rcases List.mem_map.mp hb with ⟨q, hq, hqe⟩
      have hpa : p.1 < t.next_id := h1lt p hp
      have hqa : t.next_id ≤ q.1 := (hprops q hq).2.1
      rw [← hpe] at hqe
      omega
  refine ⟨?_, ?_, ?_, ?_⟩
  · intro k hk td' htd'
    rw [hmatched] at hk
    rw [hpost] at htd'
    have hkmem : k ∈ t.tracks.map Prod.fst :=
      matchLoop_sub now cents t.tracks [] hk
    rcases List.mem_map.mp hkmem with ⟨q, hq, hqe⟩
    have hqmem : (k, q.2) ∈ t.tracks := by
      have hqe2 : q = (k, q.2) := by
        rw [← hqe]
      rw [← hqe2]
      exact hq
    rcases (matchLoop_entries now cents t.tracks [] hnd k q.2 hqmem).1 hk
      with ⟨td2, htd2, _, hage0, _⟩
    have : td' = td2 := assoc_key_unique h1nd htd' htd2
    rw [this]
    exact hage0
  · intro k td hmem hk h1le
    rw [hmatched] at hk
    rcases (matchLoop_entries now cents t.tracks [] hnd k td hmem).1 hk
      with ⟨td2, htd2, hid2, hage0, hhits⟩
    have htdid : td2.id = some k := by
      rw [hid2]
      exact hid (k, td) hmem
    have htd2mem : (k, td2) ∈ (newLoop now cam
        (matchLoop now cents t.tracks [] []).2.2 cents.enum
        (matchLoop now cents t.tracks [] []).1 t.next_id).1 := by
      rw [hsplit]
      exact List.mem_append_left _ htd2
    have hle : td2.age + 1 ≤ t.max_age := by
      rw [hage0]
      exact h1le
    refine ⟨{ td2 with age := td2.age + 1 }, ?_, ?_, ?_⟩
    · rw [htr]
      exact agePhase_mem htd2mem htdid hle
    · show td2.age + 1 = 1
      rw [hage0]
    · show td2.hits = td.hits + 1
      exact hhits
  · intro k td hmem hk
    rw [hmatched] at hk
    have hcopied := (matchLoop_entries now cents t.tracks [] hnd k td hmem).2 hk
    have htdmem2 : (k, td) ∈ (newLoop now cam
        (matchLoop now cents t.tracks [] []).2.2 cents.enum
        (matchLoop now cents t.tracks [] []).1 t.next_id).1 := by
      rw [hsplit]
      exact List.mem_append_left _ hcopied
    have htdid : td.id = some k := hid (k, td) hmem
    constructor
    · intro hle
      rw [htr]
      exact agePhase_mem htdmem2 htdid hle
    · intro hgt
      have habs : ∀ td', (k, td') ∉ t'.tracks := by
        intro td' htd'
        rw [htr] at htd'
        exact agePhase_absent h2nd h2id htdmem2 hgt td' htd'
      refine ⟨habs, ?_⟩
      intro a ha hcontra
      rw [hact] at ha
      rcases activeOf_origin t'.tracks t.min_hits a ha with ⟨p, hp, hpid, _⟩
      have hpids : p.2.id = some p.1 := hid' p hp
      rw [hpid, hpids] at hcontra
      have hp1 : p.1 = k := Option.some.inj hcontra
      apply habs p.2
      rw [← hp1]
      have hpe : p = (p.1, p.2) := rfl
      rw [← hpe]
      exact hp
  · intro p hp
    rw [htr] at hp
    exact agePhase_age_le h2id p hp

/-- Witness for C7 on the second frame of the concrete scenario, where the
existing track is matched again. -/
theorem c7_age_discipline_witness :
    (∀ k ∈ c4t1.matchedOf [c4det] 1, ∀ td',
      (k, td') ∈ c4t1.postMatchTracks [c4det] 1 → td'.age = 0) ∧
    (∀ k td, (k, td) ∈ c4t1.tracks → k ∈ c4t1.matchedOf [c4det] 1 →
      1 ≤ c4t1.max_age →
      ∃ td', (k, td') ∈ c4t2.tracks ∧ td'.age = 1 ∧ td'.hits = td.hits + 1) ∧
    (∀ k td, (k, td) ∈ c4t1.tracks → k ∉ c4t1.matchedOf [c4det] 1 →
      (td.age + 1 ≤ c4t1.max_age →
        (k, { td with age := td.age + 1 }) ∈ c4t2.tracks) ∧
      (c4t1.max_age < td.age + 1 →
        (∀ td', (k, td') ∉ c4t2.tracks) ∧ ∀ a ∈ c4a2, a.track_id ≠ some k)) ∧
    (∀ p ∈ c4t2.tracks, p.2.age ≤ c4t1.max_age) :=
  c7_age_discipline c4t1 [c4det] "cam_001" 1 c4t2 c4a2
    (VehicleTracker.Reachable.step c4t0 c4t1 [c4det] "cam_001" 0 c4a1
      (VehicleTracker.Reachable.init 30 3) rfl) rfl

/-- C9 counterexample: a detection dict without a `bbox` key makes `update`
raise a KeyError (modelled by `none`) instead of being treated as "no
detections this frame". -/
theorem c9_malformed_counterexample :
    (VehicleTracker.init 30 3).update [{ bbox := none }] "cam_001" 0 = none :=
  rfl

/-- C9 amended: an empty detections list is handled without error as the
no-detections frame — no track matches, no track is created, every track
ages by one, and removal happens only by normal aging — but a detection
entry missing its `bbox` key raises (returns `none`), contrary to the
never-an-error claim. -/
theorem c9_empty_vs_malformed (t : VehicleTracker) (cam : String) (now : Nat)
    (hid : ∀ p ∈ t.tracks, p.2.id = some p.1) :
    t.update [] cam now =
      some ({ t with tracks := agePhase t.tracks t.max_age },
        activeOf (agePhase t.tracks t.max_age) t.min_hits) ∧
    (∀ k td, (k, td) ∈ t.tracks → td.age + 1 ≤ t.max_age →
      (k, { td with age := td.age + 1 }) ∈ agePhase t.tracks t.max_age) ∧
    (∀ p ∈ agePhase t.tracks t.max_age, p.2.age ≤ t.max_age) ∧
    (∀ d : RawDet, d.bbox = none → ∀ ds : List RawDet,
      t.update (d :: ds) cam now = none) := by
  refine ⟨?_, ?_, ?_, ?_⟩
  · have hc : centroidsOf ([] : List RawDet) = some [] := rfl
    unfold VehicleTracker.update
    simp only [hc, matchLoop_nil, List.enum_nil, newLoop]
  · intro k td hm hle
    exact agePhase_mem hm (hid (k, td) hm) hle
  · exact agePhase_age_le hid
  · intro d hd ds
    have hcn : centroidsOf (d :: ds) = none := by
      unfold centroidsOf
      rw [List.mapM_cons]
      simp [hd]
    unfold VehicleTracker.update
    rw [hcn]

/-- Witness for the amended C9 theorem on a tracker with one live track. -/
theorem c9_empty_vs_malformed_witness :
    c4t1.update [] "cam_001" 5 =
      some ({ c4t1 with tracks := agePhase c4t1.tracks c4t1.max_age },
        activeOf (agePhase c4t1.tracks c4t1.max_age) c4t1.min_hits) ∧
    (∀ k td, (k, td) ∈ c4t1.tracks → td.age + 1 ≤ c4t1.max_age →
      (k, { td with age := td.age + 1 }) ∈ agePhase c4t1.tracks c4t1.max_age) ∧
    (∀ p ∈ agePhase c4t1.tracks c4t1.max_age, p.2.age ≤ c4t1.max_age) ∧
    (∀ d : RawDet, d.bbox = none → ∀ ds : List RawDet,
      c4t1.update (d :: ds) "cam_001" 5 = none) :=
  c9_empty_vs_malformed c4t1 "cam_001" 5 (by decide)

end KenyaOverwatch
